import Mathlib

/-!
# Figure layout and padding coordination (`js/src/Figure.js`)

A shallow embedding of the geometry and padding bookkeeping of the bqplot
`Figure` view, and the properties of it that the specification states.

Numbers.  A JavaScript number is modelled by `JSVal`: an exact rational, `NaN`,
or one of the two infinities, together with the value `undefined`.  Rounding
is not modelled (arithmetic on finite values is exact) and the two zeros are
identified (a zero divisor behaves as `+0`).  Division and multiplication
follow the IEEE rules on the special values, so that `x / 0` is an infinity
or `NaN` and never a finite number.
-/

namespace Figure

/-! ## JavaScript values -/

/-- A JavaScript value that reaches the sizing code: `undefined`, `NaN`, a
finite number, or `+Infinity` (`inf true`) / `-Infinity` (`inf false`). -/
inductive JSVal where
  | undefined : JSVal
  | nan : JSVal
  | num (q : ℚ) : JSVal
  | inf (positive : Bool) : JSVal
  deriving DecidableEq

namespace JSVal

/-- `ToNumber`: `undefined` becomes `NaN`, numbers are unchanged. -/
def toNumber : JSVal → JSVal
  | undefined => nan
  | v => v

/-- The strict comparison `v === undefined`. -/
def isUndefined : JSVal → Bool
  | undefined => true
  | _ => false

/-- The global `isNaN(v)`. -/
def isNaN (v : JSVal) : Bool :=
  match toNumber v with
  | nan => true
  | _ => false

/-- The comparison `a < b`; false as soon as one side is `NaN`. -/
def lt (a b : JSVal) : Bool :=
  match toNumber a, toNumber b with
  | num x, num y => decide (x < y)
  | num _, inf p => p
  | inf p, num _ => !p
  | inf p, inf q => !p && q
  | _, _ => false

/-- The comparison `a <= b`; false as soon as one side is `NaN`. -/
def le (a b : JSVal) : Bool :=
  match toNumber a, toNumber b with
  | num x, num y => decide (x ≤ y)
  | num _, inf p => p
  | inf p, num _ => !p
  | inf p, inf q => !p || q
  | _, _ => false

/-- The comparison `a > b`. -/
def gt (a b : JSVal) : Bool := lt b a

/-- The comparison `a >= b`. -/
def ge (a b : JSVal) : Bool := le b a

/-- The product `a * b`: `Infinity * 0` is `NaN`, the sign of an infinite
product is the product of the signs. -/
def mul (a b : JSVal) : JSVal :=
  match toNumber a, toNumber b with
  | num x, num y => num (x * y)
  | num x, inf p => if x = 0 then nan else inf (if 0 < x then p else !p)
  | inf p, num y => if y = 0 then nan else inf (if 0 < y then p else !p)
  | inf p, inf q => inf (p == q)
  | _, _ => nan

/-- The quotient `a / b`: `0 / 0` and `Infinity / Infinity` are `NaN`, a
non-zero number over zero is an infinity, a finite number over an infinity
is zero. -/
def div (a b : JSVal) : JSVal :=
  match toNumber a, toNumber b with
  | num x, num y =>
      if y = 0 then (if x = 0 then nan else inf (decide (0 < x))) else num (x / y)
  | num _, inf _ => num 0
  | inf p, num y => inf (if 0 ≤ y then p else !p)
  | inf _, inf _ => nan
  | _, _ => nan

/-- The difference `a - b`: `Infinity - Infinity` is `NaN`. -/
def sub (a b : JSVal) : JSVal :=
  match toNumber a, toNumber b with
  | num x, num y => num (x - y)
  | num _, inf p => inf (!p)
  | inf p, num _ => inf p
  | inf p, inf q => if p = q then nan else inf p
  | _, _ => nan

end JSVal

open JSVal

/-! ## The aspect-ratio sizer -/

/-- The object `{width: .., height: ..}` returned by `_get_height_width`. -/
structure Dimensions where
  width : JSVal
  height : JSVal
  deriving DecidableEq

/-- `Figure._get_height_width`, with the two model attributes it reads
(`max_aspect_ratio`, `min_aspect_ratio`) passed in front of its arguments.
Both undefined-tests are transcribed as written: the height test compares
`suggested_width` with zero. -/
def _get_height_width (max_ratio min_ratio : JSVal)
    (suggested_height suggested_width : JSVal) : Dimensions :=
  let width_undefined : Bool :=
    isUndefined suggested_width || isNaN suggested_width || le suggested_width (num 0)
  let height_undefined : Bool :=
    isUndefined suggested_height || isNaN suggested_height || le suggested_width (num 0)
  let suggested : JSVal × JSVal :=
    if width_undefined && height_undefined then
      (num 480, num 640)
    else if height_undefined then
      (div suggested_width min_ratio, suggested_width)
    else if width_undefined then
      (suggested_height, mul suggested_height min_ratio)
    else
      (suggested_height, suggested_width)
  let suggested_height := suggested.1
  let suggested_width := suggested.2
  let ratio := div suggested_width suggested_height
  if le ratio max_ratio && ge ratio min_ratio then
    { width := suggested_width, height := suggested_height }
  else if gt ratio max_ratio then
    { height := suggested_height, width := mul suggested_height max_ratio }
  else
    { width := suggested_width, height := div suggested_width min_ratio }

/-- A suggested dimension is undefined, in the sense of the specification,
when it is absent, not a number, or at most zero. -/
def SpecUndefined (v : JSVal) : Prop :=
  v = JSVal.undefined ∨ v = JSVal.nan ∨ ∃ q : ℚ, v = JSVal.num q ∧ q ≤ 0

/-! ## Objects used as dictionaries -/

/-- A JavaScript object used as a dictionary: its own string keys with their
values, in insertion order.  An actual object has no repeated key
(`JSObj.keys` has no duplicates). -/
abbrev JSObj (α : Type) := List (String × α)

namespace JSObj

variable {α : Type}

/-- The property read `o[k]`; `none` stands for `undefined`. -/
def get : JSObj α → String → Option α
  | [], _ => none
  | (k', v) :: t, k => if k' = k then some v else get t k

/-- The assignment `o[k] = v`: an existing key keeps its position, a new key
is appended. -/
def set : JSObj α → String → α → JSObj α
  | [], k, v => [(k, v)]
  | (k', v') :: t, k, v => if k' = k then (k, v) :: t else (k', v') :: set t k v

/-- The statement `delete o[k]`. -/
def delete : JSObj α → String → JSObj α
  | [], _ => []
  | (k', v') :: t, k => if k' = k then delete t k else (k', v') :: delete t k

/-- The array `Object.keys(o)`. -/
def keys (o : JSObj α) : List String := o.map Prod.fst

/-- The read `o[k]` where `k` may be `null`: the property name is then the
string `"null"`. -/
def index (o : JSObj α) (k : Option String) : Option α :=
  match k with
  | some key => get o key
  | none => get o "null"

end JSObj

/-! ## Scales, marks and the figure state -/

/-- The part of a scale model the figure reads: its `id` and its
`allow_padding` attribute. -/
structure ScaleModel where
  id : String
  allow_padding : Bool
  deriving DecidableEq

/-- The part of a mark model the figure reads.  `scales` is `get("scales")`,
`previous_scales` is `previous("scales")`.  The two key look-ups are methods
of the mark model, which is defined outside `Figure.js`; they are taken as
given, `none` standing for `null`. -/
structure MarkModel where
  id : String
  scales : JSObj ScaleModel
  previous_scales : JSObj ScaleModel
  get_key_for_dimension : String → Option String
  get_key_for_orientation : String → Option String

/-- A mark view: its model, its client id and the paddings it requests. -/
structure MarkView where
  model : MarkModel
  cid : String
  x_padding : ℚ
  y_padding : ℚ

/-- A padding registry (`x_pad_dict`, `y_pad_dict`): scale id ↦ bucket, a
bucket being mark key ↦ padding. -/
abbrev PadDict := JSObj (JSObj ℚ)

/-- The key of a mark in a bucket: `mark_view.model.id + "_" + mark_view.cid`. -/
def mark_key (mark_view : MarkView) : String :=
  mark_view.model.id ++ "_" ++ mark_view.cid

/-- The fields of the figure view that the layout code reads and writes. -/
structure State where
  x_pad_dict : PadDict
  y_pad_dict : PadDict
  x_padding_arr : JSObj ℚ
  y_padding_arr : JSObj ℚ
  figure_padding_x : ℚ
  figure_padding_y : ℚ
  plotarea_width : ℚ
  plotarea_height : ℚ
  scale_x : ScaleModel
  scale_y : ScaleModel

/-! ## The padding registry -/

/-- `Figure.remove_from_padding_dict`; `none` is an `undefined` or `null`
scale model. -/
def remove_from_padding_dict (dict : PadDict) (mark_view : MarkView)
    (scale_model : Option ScaleModel) : PadDict :=
  match scale_model with
  | none => dict
  | some sm =>
    let scale_id := sm.id
    match dict.get scale_id with
    | none => dict
    | some bucket =>
      let bucket1 := bucket.delete (mark_key mark_view)
      if bucket1.keys.length = 0 then dict.delete scale_id
      else dict.set scale_id bucket1

/-- `Figure.update_padding_dict`.  Reading `scale_model.id` of an `undefined`
scale model throws; the result is then `none`. -/
def update_padding_dict (dict : PadDict) (mark_view : MarkView)
    (scale_model : Option ScaleModel) (value : ℚ) : Option PadDict :=
  match scale_model with
  | none => none
  | some sm =>
    let scale_id := sm.id
    let dict1 : PadDict :=
      match dict.get scale_id with
      | none => dict.set scale_id []
      | some _ => dict
    match dict1.get scale_id with
    | none => none
    | some bucket => some (dict1.set scale_id (bucket.set (mark_key mark_view) value))

/-- The inner loop of `update_paddings`: `max = 0`, then
`max = Math.max(max, value)` for each entry of the bucket. -/
def bucket_max (dict : JSObj ℚ) : ℚ :=
  dict.foldl (fun mx entry => max mx entry.2) 0

/-- The outer loop of `update_paddings` over one registry, starting from the
empty object: `arr[scale_id] = max` for each bucket. -/
def aggregate (pad_dict : PadDict) : JSObj ℚ :=
  pad_dict.foldl (fun arr entry => arr.set entry.1 (bucket_max entry.2)) []

/-- `Figure.update_paddings`. -/
def update_paddings (f : State) : State :=
  { f with
    x_padding_arr := aggregate f.x_pad_dict
    y_padding_arr := aggregate f.y_pad_dict }

/-- The effective padding of a scale as the readers take it:
`(arr[scale_id] !== undefined) ? arr[scale_id] : 0`. -/
def effective_padding (arr : JSObj ℚ) (scale_id : String) : ℚ :=
  match arr.get scale_id with
  | some p => p
  | none => 0

/-! ## Mark lifecycle: the registry side -/

/-- The registry part of `Figure.add_mark` (the body of the completion
callback): the mark is registered under its own `x` / `y` scale, or under the
figure scale when it has none. -/
def add_mark (f : State) (view : MarkView) : Option State :=
  let child_x_scale := view.model.scales.index (view.model.get_key_for_dimension "x")
  let child_y_scale := view.model.scales.index (view.model.get_key_for_dimension "y")
  let child_x_scale :=
    match child_x_scale with
    | none => some f.scale_x
    | some s => some s
  let child_y_scale :=
    match child_y_scale with
    | none => some f.scale_y
    | some s => some s
  match update_padding_dict f.x_pad_dict view child_x_scale view.x_padding,
        update_padding_dict f.y_pad_dict view child_y_scale view.y_padding with
  | some x, some y => some { f with x_pad_dict := x, y_pad_dict := y }
  | _, _ => none

/-- The registry part of `Figure.remove_mark`. -/
def remove_mark (f : State) (view : MarkView) : State :=
  let model := view.model
  let scale_models := model.scales
  { f with
    x_pad_dict := remove_from_padding_dict f.x_pad_dict view
      (scale_models.index (model.get_key_for_orientation "horizontal"))
    y_pad_dict := remove_from_padding_dict f.y_pad_dict view
      (scale_models.index (model.get_key_for_orientation "vertical")) }

/-- `Figure.mark_scales_updated`; `none` when an update throws. -/
def mark_scales_updated (f : State) (view : MarkView) : Option State :=
  let model := view.model
  let prev_scale_models := model.previous_scales
  let x1 := remove_from_padding_dict f.x_pad_dict view
    (prev_scale_models.index (model.get_key_for_orientation "horizontal"))
  let y1 := remove_from_padding_dict f.y_pad_dict view
    (prev_scale_models.index (model.get_key_for_orientation "vertical"))
  let scale_models := model.scales
  match update_padding_dict x1 view
          (scale_models.index (model.get_key_for_orientation "horizontal")) view.x_padding,
        update_padding_dict y1 view
          (scale_models.index (model.get_key_for_orientation "vertical")) view.y_padding with
  | some x, some y => some (update_paddings { f with x_pad_dict := x, y_pad_dict := y })
  | _, _ => none

/-- `Figure.mark_padding_updated`; `none` when an update throws. -/
def mark_padding_updated (f : State) (view : MarkView) : Option State :=
  let model := view.model
  let scale_models := model.scales
  match update_padding_dict f.x_pad_dict view
          (scale_models.index (model.get_key_for_orientation "horizontal")) view.x_padding,
        update_padding_dict f.y_pad_dict view
          (scale_models.index (model.get_key_for_orientation "vertical")) view.y_padding with
  | some x, some y => some (update_paddings { f with x_pad_dict := x, y_pad_dict := y })
  | _, _ => none

/-! ## Ranges -/

/-- `Figure.range`: the unpadded pixel range; `none` is the `undefined`
returned for a direction other than `"x"` and `"y"`. -/
def range (f : State) (direction : String) : Option (ℚ × ℚ) :=
  if direction = "x" then some (0, f.plotarea_width)
  else if direction = "y" then some (f.plotarea_height, 0)
  else none

/-- `Figure.padded_range`. -/
def padded_range (f : State) (direction : String) (scale_model : ScaleModel) :
    Option (ℚ × ℚ) :=
  if !scale_model.allow_padding then range f direction
  else
    let scale_id := scale_model.id
    if direction = "x" then
      let scale_padding := effective_padding f.x_padding_arr scale_id
      let fig_padding := f.plotarea_width * f.figure_padding_x
      some (fig_padding + scale_padding, f.plotarea_width - fig_padding - scale_padding)
    else if direction = "y" then
      let scale_padding := effective_padding f.y_padding_arr scale_id
      let fig_padding := f.plotarea_height * f.figure_padding_y
      some (f.plotarea_height - scale_padding - fig_padding, scale_padding + fig_padding)
    else none

/-! ## Figure geometry -/

/-- The model attribute `fig_margin`. -/
structure Margin where
  top : JSVal
  right : JSVal
  bottom : JSVal
  left : JSVal
  deriving DecidableEq

/-- The size fields of the figure view: total size, margin and plot area. -/
structure Geometry where
  width : JSVal
  height : JSVal
  margin : Margin
  plotarea_width : JSVal
  plotarea_height : JSVal
  deriving DecidableEq

/-- `Figure.update_plotarea_dimensions`. -/
def update_plotarea_dimensions (g : Geometry) : Geometry :=
  { g with
    plotarea_width := sub (sub g.width g.margin.left) g.margin.right
    plotarea_height := sub (sub g.height g.margin.top) g.margin.bottom }

/-- The size part of `Figure.render`.  `min_height` and `min_width` are the
numbers read from `layout.min_height` and `layout.min_width` with their unit
cut off, `fig_margin` is the model attribute; the plot area is not set
before. -/
def render (max_ratio min_ratio min_height min_width : JSVal) (fig_margin : Margin) :
    Geometry :=
  let impl_dimensions := _get_height_width max_ratio min_ratio min_height min_width
  update_plotarea_dimensions
    { width := impl_dimensions.width
      height := impl_dimensions.height
      margin := fig_margin
      plotarea_width := undefined
      plotarea_height := undefined }

/-- The synchronous part of `Figure.relayout`: the size is recomputed from the
size of the element, everything else waits for the animation frame. -/
def relayout (g : Geometry) (max_ratio min_ratio clientHeight clientWidth : JSVal) :
    Geometry :=
  let impl_dimensions := _get_height_width max_ratio min_ratio clientHeight clientWidth
  { g with width := impl_dimensions.width, height := impl_dimensions.height }

/-- The size part of the callback that `Figure.relayout` hands to
`requestAnimationFrame`: the margin is read from the model and the plot area
is recomputed. -/
def relayout_animation_frame (g : Geometry) (fig_margin : Margin) : Geometry :=
  update_plotarea_dimensions { g with margin := fig_margin }

/-- One step that changes the size fields, with the values it reads from the
model and from the element. -/
inductive GeometryStep where
  | render (max_ratio min_ratio min_height min_width : JSVal) (fig_margin : Margin)
  | relayout (max_ratio min_ratio clientHeight clientWidth : JSVal)
  | relayout_animation_frame (fig_margin : Margin)
  | update_plotarea_dimensions

/-- The effect of a step on the size fields. -/
def GeometryStep.apply : GeometryStep → Geometry → Geometry
  | .render max_ratio min_ratio min_height min_width fig_margin, _ =>
      Figure.render max_ratio min_ratio min_height min_width fig_margin
  | .relayout max_ratio min_ratio clientHeight clientWidth, g =>
      Figure.relayout g max_ratio min_ratio clientHeight clientWidth
  | .relayout_animation_frame fig_margin, g => Figure.relayout_animation_frame g fig_margin
  | .update_plotarea_dimensions, g => Figure.update_plotarea_dimensions g

/-- The step is the synchronous part of `relayout`. -/
def GeometryStep.isRelayout : GeometryStep → Bool
  | .relayout _ _ _ _ => true
  | _ => false

/-- The state after a sequence of steps. -/
def run_steps (steps : List GeometryStep) (g : Geometry) : Geometry :=
  steps.foldl (fun g step => step.apply g) g

/-- The stored plot area is the stored size less the stored margin. -/
def PlotareaFresh (g : Geometry) : Prop :=
  g.plotarea_width = sub (sub g.width g.margin.left) g.margin.right
    ∧ g.plotarea_height = sub (sub g.height g.margin.top) g.margin.bottom

/-! ## The extent left to a mark -/

/-- `Figure.get_mark_plotarea_height`. -/
def get_mark_plotarea_height (f : State) (scale_model : ScaleModel) : ℚ :=
  if !scale_model.allow_padding then f.plotarea_height
  else
    let scale_id := scale_model.id
    let scale_padding := effective_padding f.y_padding_arr scale_id
    f.plotarea_height * (1 - f.figure_padding_y) - scale_padding - scale_padding

/-- `Figure.get_mark_plotarea_width`. -/
def get_mark_plotarea_width (f : State) (scale_model : ScaleModel) : ℚ :=
  if !scale_model.allow_padding then f.plotarea_width
  else
    let scale_id := scale_model.id
    let scale_padding := effective_padding f.x_padding_arr scale_id
    f.plotarea_width * (1 - f.figure_padding_x) - scale_padding - scale_padding

/-! ## The legend -/

/-- What `update_legend` reads from a mark view: the attribute
`display_legend` of its model and its method `draw_legend`, which is defined
outside `Figure.js`.  Of the arguments of `draw_legend` only the vertical
offset varies; the result is the array `[rows, label length]`, `none` being an
`undefined` label length. -/
structure LegendMark where
  display_legend : Bool
  draw_legend : ℚ → ℚ × Option ℚ

/-- The local `legend_height` of `update_legend`. -/
def legend_height : ℚ := 14

/-- The local `legend_width` of `update_legend`. -/
def legend_width : ℚ := 24

/-- The local `em` of `update_legend`. -/
def em : ℚ := 16

/-- `Figure.get_legend_coords`; the result is the array `[x_start, y_start]`. -/
def get_legend_coords (f : State) (legend_location : String) (width height disp : ℚ) :
    ℚ × ℚ :=
  let fig_width := f.plotarea_width
  let fig_height := f.plotarea_height
  if legend_location = "top" then (fig_width * 0.5 - width, 0)
  else if legend_location = "top-right" then (fig_width - disp, 0)
  else if legend_location = "right" then (fig_width - disp, fig_height * 0.5 - height)
  else if legend_location = "bottom-right" then (fig_width - disp, fig_height - height)
  else if legend_location = "bottom" then (fig_width * 0.5 - width, fig_height - height)
  else if legend_location = "bottom-left" then (0, fig_height - height)
  else if legend_location = "left" then (0, fig_height * 0.5 - height)
  else (0, 0)

/-- The body of the loop of `update_legend` over the mark views, on the pair
`(count, max_label_len)`.  A label length that is `undefined` or `0` is
falsy and leaves `max_label_len` as it is. -/
def legend_step (acc : ℚ × ℚ) (mark_view : LegendMark) : ℚ × ℚ :=
  let count := acc.1
  let max_label_len := acc.2
  if mark_view.display_legend then
    let child_count := mark_view.draw_legend (count * (legend_height + 2))
    let count := count + child_count.1
    let max_label_len :=
      match child_count.2 with
      | some len => if len = 0 then max_label_len else max max_label_len len
      | none => max_label_len
    (count, max_label_len)
  else (count, max_label_len)

/-- What `update_legend` places: the block height it passes to
`get_legend_coords`, the coordinates it gets back, whether the border
rectangle is drawn, and the translation given to the legend group. -/
structure LegendPlacement where
  count : ℚ
  max_label_len : ℚ
  height : ℚ
  coords : ℚ × ℚ
  border : Bool
  translate : ℚ × ℚ

/-- `Figure.update_legend`, from the views once they are resolved; `none`
when `mark_views` is `undefined` or `null` and nothing is placed.  The local
`legend_disp` is computed in the source but not used: the displacement passed
to `get_legend_coords` is the constant `0`. -/
def update_legend (f : State) (legend_location : String)
    (mark_views : Option (List LegendMark)) : Option LegendPlacement :=
  match mark_views with
  | none => none
  | some views =>
    let acc := views.foldl legend_step (1, 1)
    let count := acc.1
    let max_label_len := acc.2
    let coords := get_legend_coords f legend_location legend_width
      ((count + 1) * (legend_height + 2)) 0
    let border := decide (count ≠ 1)
    let max_label_len1 : ℚ :=
      if legend_location = "top-right" ∨ legend_location = "right"
          ∨ legend_location = "bottom-right" then -(max_label_len + 2) else 1
    some
      { count := count
        max_label_len := max_label_len
        height := (count + 1) * (legend_height + 2)
        coords := coords
        border := border
        translate := (coords.1 + max_label_len1 * em, coords.2) }

/-- The rows reported by `draw_legend`, in the order of the calls that
`update_legend` makes, `count` being the counter before the first call. -/
def reported_rows : List LegendMark → ℚ → List ℚ
  | [], _ => []
  | mark_view :: rest, count =>
    if mark_view.display_legend then
      (mark_view.draw_legend (count * (legend_height + 2))).1
        :: reported_rows rest (count + (mark_view.draw_legend (count * (legend_height + 2))).1)
    else reported_rows rest count

/-- The label lengths reported by `draw_legend` that count (those that are
neither `undefined` nor `0`), in the order of the calls that `update_legend`
makes, `count` being the counter before the first call. -/
def reported_labels : List LegendMark → ℚ → List ℚ
  | [], _ => []
  | mark_view :: rest, count =>
    if mark_view.display_legend then
      (match (mark_view.draw_legend (count * (legend_height + 2))).2 with
        | some len => if len = 0 then [] else [len]
        | none => [])
        ++ reported_labels rest (count + (mark_view.draw_legend (count * (legend_height + 2))).1)
    else reported_labels rest count

/-- The width in pixels of the block that `update_legend` draws: the border
rectangle is `(max_label_len + 2)` em wide, and `update_legend` takes an em
to be `16` pixels. -/
def legend_block_width (max_label_len : ℚ) : ℚ :=
  (max_label_len + 2) * em

/-! ## The container of the marks -/

/-- A DOM node, known by its identity. -/
structure Node where
  id : Nat
  deriving DecidableEq

/-- What `replace_dummy_nodes` reads from a mark view: its element `el` and
its placeholder `dummy_node`, `none` being `null`. -/
structure NodeView where
  el : Node
  dummy_node : Option Node
  deriving DecidableEq

/-- The DOM method `appendChild` on the list of children of a parent: a node
that is already a child is moved to the end. -/
def appendChild (children : List Node) (child : Node) : List Node :=
  children.filter (fun c => c ≠ child) ++ [child]

/-- The DOM method `replaceChild` on the list of children of a parent: the
new child is first taken out of the list when it is there, then put in the
place of the old one; `none` when the old node is not a child (the call
throws). -/
def replaceChild (children : List Node) (newChild oldChild : Node) : Option (List Node) :=
  if oldChild ∈ children then
    if newChild = oldChild then some children
    else
      some ((children.filter (fun c => c ≠ newChild)).map
        (fun c => if c = oldChild then newChild else c))
  else none

/-- The synchronous part of `Figure.add_mark` on the children of `fig_marks`:
a new placeholder is appended. -/
def add_mark_dummy_node (fig_marks : List Node) (dummy_node : Node) : List Node :=
  appendChild fig_marks dummy_node

/-- `Figure.replace_dummy_nodes` on the children of `fig_marks`, the parent of
every placeholder: the result is the children and the views afterwards,
`none` when a `replaceChild` throws. -/
def replace_dummy_nodes : List Node → List NodeView → Option (List Node × List NodeView)
  | fig_marks, [] => some (fig_marks, [])
  | fig_marks, view :: rest =>
    match view.dummy_node with
    | none =>
      (replace_dummy_nodes fig_marks rest).map (fun r => (r.1, view :: r.2))
    | some dummy_node =>
      match replaceChild fig_marks view.el dummy_node with
      | none => none
      | some fig_marks1 =>
        (replace_dummy_nodes fig_marks1 rest).map
          (fun r => (r.1, { view with dummy_node := none } :: r.2))

/-- The view that `add_mark` makes for a declared mark, given as the pair of
its placeholder and its element. -/
def view_of (mark : Node × Node) : NodeView :=
  { el := mark.2, dummy_node := some mark.1 }

/-! ## Predicates used in the statements -/

/-- A registry holds no empty bucket.  This holds of the empty registry the
figure starts from and is kept by `update_padding_dict` and
`remove_from_padding_dict`. -/
def NoEmptyBucket (dict : PadDict) : Prop :=
  ∀ s b, dict.get s = some b → b ≠ []

/-- The registries the figure can hold: the empty object of `render`, changed
only by `update_padding_dict` and `remove_from_padding_dict`. -/
inductive Registry : PadDict → Prop where
  | empty : Registry []
  | update (dict dict1 : PadDict) (mark_view : MarkView) (scale_model : Option ScaleModel)
      (value : ℚ) :
      Registry dict → update_padding_dict dict mark_view scale_model value = some dict1 →
      Registry dict1
  | remove (dict : PadDict) (mark_view : MarkView) (scale_model : Option ScaleModel) :
      Registry dict → Registry (remove_from_padding_dict dict mark_view scale_model)

/-- The number `p` is the maximum of the paddings of a bucket: an upper bound
that is attained, `0` for an empty bucket and for no bucket at all. -/
def IsMaxOfBucket (bucket : Option (JSObj ℚ)) (p : ℚ) : Prop :=
  match bucket with
  | none => p = 0
  | some b => (∀ e ∈ b, e.2 ≤ p) ∧ (b = [] → p = 0) ∧ (b ≠ [] → ∃ e ∈ b, e.2 = p)

/-- The number `m` is the largest of `1` and the label lengths in `labels`. -/
def IsLargestLabel (labels : List ℚ) (m : ℚ) : Prop :=
  1 ≤ m ∧ (∀ l ∈ labels, l ≤ m) ∧ (m = 1 ∨ m ∈ labels)

/-- The node found at the place of `x` once the placeholders of `marks` are
replaced: the element of the first mark whose placeholder is `x`, and `x`
itself when there is none. -/
def substitute : List (Node × Node) → Node → Node
  | [], x => x
  | (d, e) :: rest, x => if x = d then e else substitute rest x

/-! ## Concrete data for the worked examples -/

namespace Example

/-- A scale with id `"s"`. -/
def scale_s : ScaleModel := { id := "s", allow_padding := true }

/-- A second and a third scale, `"s1"` and `"s2"`. -/
def scale_s1 : ScaleModel := { id := "s1", allow_padding := true }

/-- The scale `"s2"`. -/
def scale_s2 : ScaleModel := { id := "s2", allow_padding := true }

/-- The default horizontal scale of the figure, id `"fx"`. -/
def fig_scale_x : ScaleModel := { id := "fx", allow_padding := false }

/-- The default vertical scale of the figure, id `"fy"`. -/
def fig_scale_y : ScaleModel := { id := "fy", allow_padding := false }

/-- A mark model whose `x` scale is horizontal and whose `y` scale is
vertical, with the given current and previous `scales`. -/
def mark_model (id : String) (scales previous_scales : JSObj ScaleModel) : MarkModel :=
  { id := id
    scales := scales
    previous_scales := previous_scales
    get_key_for_dimension := fun d =>
      if d = "x" then some "x" else if d = "y" then some "y" else none
    get_key_for_orientation := fun o =>
      if o = "horizontal" then some "x" else if o = "vertical" then some "y" else none }

/-- A mark on the scale `"s"` asking for a padding of `5`. -/
def mark_a : MarkView :=
  { model := mark_model "a" [("x", scale_s), ("y", scale_s)] []
    cid := "v1", x_padding := 5, y_padding := 5 }

/-- A mark on the scale `"s"` asking for a padding of `12`. -/
def mark_b : MarkView :=
  { model := mark_model "b" [("x", scale_s), ("y", scale_s)] []
    cid := "v2", x_padding := 12, y_padding := 12 }

/-- A mark that names no scale of its own. -/
def mark_c : MarkView :=
  { model := mark_model "c" [] [], cid := "v3", x_padding := 5, y_padding := 3 }

/-- The mark `mark_c` after its scales were set to `"s1"` and `"s2"`; it had
none before. -/
def mark_c_rebound : MarkView :=
  { model := mark_model "c" [("x", scale_s1), ("y", scale_s2)] []
    cid := "v3", x_padding := 5, y_padding := 3 }

/-- A figure of plot area `600 × 400` with the given registries and
aggregates, and a figure padding fraction of `1/10` on both axes. -/
def figure (x_pad_dict y_pad_dict : PadDict) (x_padding_arr y_padding_arr : JSObj ℚ) : State :=
  { x_pad_dict := x_pad_dict
    y_pad_dict := y_pad_dict
    x_padding_arr := x_padding_arr
    y_padding_arr := y_padding_arr
    figure_padding_x := 1 / 10
    figure_padding_y := 1 / 10
    plotarea_width := 600
    plotarea_height := 400
    scale_x := fig_scale_x
    scale_y := fig_scale_y }

/-- The registry holding the entries of `mark_a` and `mark_b` under `"s"`. -/
def two_marks : PadDict := [("s", [("a_v1", 5), ("b_v2", 12)])]

/-- The registry holding the entry of `mark_a` under `"s"`. -/
def one_mark : PadDict := [("s", [("a_v1", 5)])]

/-- A margin of `60` on every side. -/
def margin_60 : Margin := { top := num 60, right := num 60, bottom := num 60, left := num 60 }

/-- A margin of `40` on every side. -/
def margin_40 : Margin := { top := num 40, right := num 40, bottom := num 40, left := num 40 }

/-- The size fields before `render`: nothing is set. -/
def initial_geometry : Geometry :=
  { width := undefined, height := undefined
    margin := { top := undefined, right := undefined, bottom := undefined, left := undefined }
    plotarea_width := undefined, plotarea_height := undefined }

/-- A mark whose legend takes three rows with labels of length `7`. -/
def legend_mark_3 : LegendMark :=
  { display_legend := true, draw_legend := fun _ => (3, some 7) }

/-- A mark that is left out of the legend. -/
def legend_mark_hidden : LegendMark :=
  { display_legend := false, draw_legend := fun _ => (2, some 20) }

/-- Three marks `A`, `B`, `C` in declared order, each with its placeholder
(nodes `1`, `2`, `3`) and its element (nodes `11`, `12`, `13`). -/
def marks_abc : List (Node × Node) := [(⟨1⟩, ⟨11⟩), (⟨2⟩, ⟨12⟩), (⟨3⟩, ⟨13⟩)]

/-- The same marks in the order `C`, `A`, `B`. -/
def marks_cab : List (Node × Node) := [(⟨3⟩, ⟨13⟩), (⟨1⟩, ⟨11⟩), (⟨2⟩, ⟨12⟩)]

end Example

/-! # Theorems -/

/-! ### Evaluation lemmas for the arithmetic on values -/

namespace JSVal

@[simp]
theorem isUndefined_undefined : isUndefined undefined = true := rfl
@[simp]
theorem isUndefined_nan : isUndefined nan = false := rfl
@[simp]
theorem isUndefined_num (q : ℚ) : isUndefined (num q) = false := rfl
@[simp]
theorem isUndefined_inf (p : Bool) : isUndefined (inf p) = false := rfl
@[simp]
theorem isNaN_undefined : isNaN undefined = true := rfl
@[simp]
theorem isNaN_nan : isNaN nan = true := rfl
@[simp]
theorem isNaN_num (q : ℚ) : isNaN (num q) = false := rfl
@[simp]
theorem isNaN_inf (p : Bool) : isNaN (inf p) = false := rfl

@[simp]
theorem le_num_num (x y : ℚ) : le (num x) (num y) = decide (x ≤ y) := rfl
@[simp]
theorem lt_num_num (x y : ℚ) : lt (num x) (num y) = decide (x < y) := rfl
@[simp]
theorem ge_num_num (x y : ℚ) : ge (num x) (num y) = decide (y ≤ x) := rfl
@[simp]
theorem gt_num_num (x y : ℚ) : gt (num x) (num y) = decide (y < x) := rfl
@[simp]
theorem le_undefined_left (b : JSVal) : le undefined b = false := by
  cases b <;> rfl
@[simp]
theorem le_nan_left (b : JSVal) : le nan b = false := by
  cases b <;> rfl
@[simp]
theorem le_nan_right (a : JSVal) : le a nan = false := by
  cases a <;> rfl
@[simp]
theorem ge_nan_left (b : JSVal) : ge nan b = false := by
  cases b <;> rfl
@[simp]
theorem gt_nan_left (b : JSVal) : gt nan b = false := by
  cases b <;> rfl
@[simp]
theorem le_inf_num (p : Bool) (y : ℚ) : le (inf p) (num y) = !p := rfl
@[simp]
theorem ge_inf_num (p : Bool) (y : ℚ) : ge (inf p) (num y) = p := rfl
@[simp]
theorem gt_inf_num (p : Bool) (y : ℚ) : gt (inf p) (num y) = p := rfl

@[simp]
theorem mul_num_num (x y : ℚ) : mul (num x) (num y) = num (x * y) := rfl
@[simp]
theorem div_num_num (x y : ℚ) :
    div (num x) (num y)
      = if y = 0 then (if x = 0 then nan else inf (decide (0 < x))) else num (x / y) := rfl

end JSVal

/-! ### Lemmas on dictionaries -/

namespace JSObj

variable {α : Type}

theorem get_eq_none_of_not_mem_keys (o : JSObj α) (k : String) (h : k ∉ o.keys) :
    o.get k = none := by
  induction o with
  | nil => rfl
  | cons e t ih =>
    obtain ⟨k', v⟩ := e
    simp only [keys, List.map_cons, List.mem_cons, not_or] at h
    have hne : ¬ (k' = k) := fun hc => h.1 hc.symm
    simp only [get, hne, if_false]
    exact ih h.2

theorem get_set_self (o : JSObj α) (k : String) (v : α) : (o.set k v).get k = some v := by
  induction o with
  | nil => simp [set, get]
  | cons e t ih =>
    obtain ⟨k', v'⟩ := e
    by_cases hk : k' = k
    · simp [set, get, hk]
    · simp [set, get, hk, ih]

theorem get_set_ne (o : JSObj α) (k k' : String) (v : α) (h : k' ≠ k) :
    (o.set k v).get k' = o.get k' := by
  induction o with
  | nil => simp [set, get, h.symm]
  | cons e t ih =>
    obtain ⟨k1, v1⟩ := e
    by_cases hk : k1 = k
    · subst hk
      simp [set, get, h.symm]
    · by_cases hk' : k1 = k'
      · subst hk'
        simp [set, get, hk]
      · simp [set, get, hk, hk', ih]

theorem get_delete_self (o : JSObj α) (k : String) : (o.delete k).get k = none := by
  induction o with
  | nil => rfl
  | cons e t ih =>
    obtain ⟨k1, v1⟩ := e
    by_cases hk : k1 = k
    · simp [delete, hk, ih]
    · simp [delete, get, hk, ih]

theorem get_delete_ne (o : JSObj α) (k k' : String) (h : k' ≠ k) :
    (o.delete k).get k' = o.get k' := by
  induction o with
  | nil => rfl
  | cons e t ih =>
    obtain ⟨k1, v1⟩ := e
    by_cases hk : k1 = k
    · subst hk
      simp [delete, get, h.symm, ih]
    · by_cases hk' : k1 = k'
      · subst hk'
        simp [delete, get, hk]
      · simp [delete, get, hk, hk', ih]

theorem set_eq_self (o : JSObj α) (k : String) (v : α) (h : o.get k = some v) :
    o.set k v = o := by
  induction o with
  | nil => simp [get] at h
  | cons e t ih =>
    obtain ⟨k1, v1⟩ := e
    by_cases hk : k1 = k
    · subst hk
      simp [get] at h
      simp [set, h]
    · simp [get, hk] at h
      simp [set, hk, ih h]

theorem delete_eq_self (o : JSObj α) (k : String) (h : o.get k = none) :
    o.delete k = o := by
  induction o with
  | nil => rfl
  | cons e t ih =>
    obtain ⟨k1, v1⟩ := e
    by_cases hk : k1 = k
    · simp [get, hk] at h
    · simp [get, hk] at h
      simp [delete, hk, ih h]

theorem set_ne_nil (o : JSObj α) (k : String) (v : α) : o.set k v ≠ [] := by
  cases o with
  | nil => simp [set]
  | cons e t =>
    obtain ⟨k1, v1⟩ := e
    by_cases hk : k1 = k <;> simp [set, hk]

theorem get_eq_none_of_eq_nil (o : JSObj α) (k : String) (h : o = []) : o.get k = none := by
  subst h; rfl

/-- An object with no readable key is the empty object. -/
theorem eq_nil_of_get_eq_none (o : JSObj α) (h : ∀ k, o.get k = none) : o = [] := by
  cases o with
  | nil => rfl
  | cons e t =>
    obtain ⟨k1, v1⟩ := e
    have := h k1
    simp [get] at this

theorem keys_length_eq_zero (o : JSObj α) : o.keys.length = 0 ↔ o = [] := by
  cases o <;> simp [keys]

theorem keys_set (o : JSObj α) (k : String) (v : α) :
    (o.set k v).keys = if k ∈ o.keys then o.keys else o.keys ++ [k] := by
  induction o with
  | nil => simp [set, keys]
  | cons e t ih =>
    obtain ⟨k1, v1⟩ := e
    by_cases hk : k1 = k
    · subst hk
      simp [set, keys]
    · have hk2 : ¬ (k = k1) := fun hc => hk hc.symm
      have ih2 : List.map Prod.fst (set t k v)
          = if k ∈ List.map Prod.fst t then List.map Prod.fst t
            else List.map Prod.fst t ++ [k] := ih
      simp only [set, hk, if_false, keys, List.map_cons, List.mem_cons, hk2, false_or, ih2]
      split <;> simp

theorem keys_nodup_set (o : JSObj α) (k : String) (v : α) (h : o.keys.Nodup) :
    (o.set k v).keys.Nodup := by
  rw [keys_set]
  split
  · exact h
  · rename_i hk
    exact List.Nodup.append h (List.nodup_singleton k) (by simpa using hk)

theorem keys_delete_sublist (o : JSObj α) (k : String) :
    (o.delete k).keys.Sublist o.keys := by
  induction o with
  | nil => exact List.Sublist.refl _
  | cons e t ih =>
    obtain ⟨k1, v1⟩ := e
    by_cases hk : k1 = k
    · simp only [delete, hk, if_true, keys, List.map_cons]
      exact List.Sublist.cons _ ih
    · simp only [delete, hk, if_false, keys, List.map_cons]
      exact List.Sublist.cons₂ _ ih

theorem keys_nodup_delete (o : JSObj α) (k : String) (h : o.keys.Nodup) :
    (o.delete k).keys.Nodup :=
  List.Nodup.sublist (keys_delete_sublist o k) h

end JSObj

/-! ## Properties of the aspect-ratio sizer -/

theorem get_height_width_in_range (w h rmin rmax : ℚ) (hw : 0 < w) (hh : 0 < h)
    (h1 : rmin ≤ w / h) (h2 : w / h ≤ rmax) :
    _get_height_width (num rmax) (num rmin) (num h) (num w) = ⟨num w, num h⟩ := by
  have hw0 : ¬ (w ≤ 0) := not_le.mpr hw
  have hhne : h ≠ 0 := ne_of_gt hh
  simp [_get_height_width, hw0, hhne, h1, h2]

theorem get_height_width_too_wide (w h rmin rmax : ℚ) (hw : 0 < w) (hh : 0 < h)
    (h1 : rmax < w / h) :
    _get_height_width (num rmax) (num rmin) (num h) (num w) = ⟨num (h * rmax), num h⟩ := by
  have hw0 : ¬ (w ≤ 0) := not_le.mpr hw
  have hhne : h ≠ 0 := ne_of_gt hh
  have h2 : ¬ (w / h ≤ rmax) := not_le.mpr h1
  simp [_get_height_width, hw0, hhne, h1, h2]

theorem get_height_width_too_tall (w h rmin rmax : ℚ) (hw : 0 < w) (hh : 0 < h)
    (hmin : 0 < rmin) (hle : rmin ≤ rmax) (h1 : w / h < rmin) :
    _get_height_width (num rmax) (num rmin) (num h) (num w) = ⟨num w, num (w / rmin)⟩ := by
  have hw0 : ¬ (w ≤ 0) := not_le.mpr hw
  have hhne : h ≠ 0 := ne_of_gt hh
  have hne : rmin ≠ 0 := ne_of_gt hmin
  have h2 : ¬ (rmin ≤ w / h) := not_le.mpr h1
  have h3 : ¬ (rmax < w / h) := not_lt.mpr (le_trans (le_of_lt h1) hle)
  simp [_get_height_width, hw0, hhne, h2, h3, hne]

/-- On two positive numbers both dimensions count as defined and the result
is a positive pair whose ratio lies between the two bounds. -/
theorem get_height_width_positive_inputs (w h rmin rmax : ℚ)
    (hw : 0 < w) (hh : 0 < h) (hmin : 0 < rmin) (hle : rmin ≤ rmax) :
    ∃ W H : ℚ, _get_height_width (num rmax) (num rmin) (num h) (num w) = ⟨num W, num H⟩
      ∧ 0 < W ∧ 0 < H ∧ rmin ≤ W / H ∧ W / H ≤ rmax := by
  have hmax : 0 < rmax := lt_of_lt_of_le hmin hle
  have hhne : h ≠ 0 := ne_of_gt hh
  by_cases hlo : rmin ≤ w / h
  · by_cases hhi : w / h ≤ rmax
    · exact ⟨w, h, get_height_width_in_range w h rmin rmax hw hh hlo hhi, hw, hh, hlo, hhi⟩
    · have hr : h * rmax / h = rmax := by
        rw [mul_comm, mul_div_assoc, div_self hhne, mul_one]
      refine ⟨h * rmax, h, get_height_width_too_wide w h rmin rmax hw hh (not_le.mp hhi),
        mul_pos hh hmax, hh, ?_, ?_⟩
      · rw [hr]
        exact hle
      · rw [hr]
  · have hr : w / (w / rmin) = rmin := div_div_cancel₀ (ne_of_gt hw)
    refine ⟨w, w / rmin,
      get_height_width_too_tall w h rmin rmax hw hh hmin hle (not_le.mp hlo),
      hw, div_pos hw hmin, ?_, ?_⟩
    · rw [hr]
    · rw [hr]
      exact hle

/-- When both undefined-tests fire, the result is the one for `640 × 480`. -/
theorem get_height_width_fallback (rmin rmax : JSVal) (w h : JSVal)
    (hwf : (isUndefined w || isNaN w || le w (num 0)) = true)
    (hhf : (isUndefined h || isNaN h || le w (num 0)) = true) :
    _get_height_width rmax rmin h w = _get_height_width rmax rmin (num 480) (num 640) := by
  have h640 : ¬ ((640 : ℚ) ≤ 0) := by norm_num
  simp [_get_height_width, hwf, hhf, h640]

/-- When only the height test fires on a positive width, the result is the
one for the height `w / min_ratio`. -/
theorem get_height_width_height_derived (rmin rmax w : ℚ) (h : JSVal)
    (hw : 0 < w) (hmin : 0 < rmin) (hh : h = undefined ∨ h = nan) :
    _get_height_width (num rmax) (num rmin) h (num w)
      = _get_height_width (num rmax) (num rmin) (num (w / rmin)) (num w) := by
  have hw0 : ¬ (w ≤ 0) := not_le.mpr hw
  have hne : rmin ≠ 0 := ne_of_gt hmin
  rcases hh with rfl | rfl
  · simp [_get_height_width, hw0, hne]
  · simp [_get_height_width, hw0, hne]

/-- When only the width test fires on a positive height, the result is the
one for the width `h * min_ratio`. -/
theorem get_height_width_width_derived (rmin rmax h : ℚ) (w : JSVal)
    (hh : 0 < h) (hmin : 0 < rmin) (hw : w = undefined ∨ w = nan) :
    _get_height_width (num rmax) (num rmin) (num h) w
      = _get_height_width (num rmax) (num rmin) (num h) (num (h * rmin)) := by
  have hp : ¬ (h * rmin ≤ 0) := not_le.mpr (mul_pos hh hmin)
  rcases hw with rfl | rfl
  · simp [_get_height_width, hp]
  · simp [_get_height_width, hp]

/-- Outside the inputs on which the height test misfires (a height that is a
number `≤ 0` while the width is not a number `≤ 0`), the result is a positive
pair whose ratio lies between `min_ratio` and `max_ratio`. -/
theorem get_height_width_sound (rmin rmax : ℚ) (w h : JSVal)
    (hmin : 0 < rmin) (hle : rmin ≤ rmax)
    (hw : w = undefined ∨ w = nan ∨ ∃ q : ℚ, w = num q)
    (hh : (∃ q : ℚ, w = num q ∧ q ≤ 0)
      ∨ h = undefined ∨ h = nan ∨ ∃ q : ℚ, h = num q ∧ 0 < q) :
    ∃ W H : ℚ, _get_height_width (num rmax) (num rmin) h w = ⟨num W, num H⟩
      ∧ 0 < W ∧ 0 < H ∧ rmin ≤ W / H ∧ W / H ≤ rmax := by
  have hfb := get_height_width_positive_inputs 640 480 rmin rmax (by norm_num) (by norm_num)
    hmin hle
  by_cases hwneg : ∃ q : ℚ, w = num q ∧ q ≤ 0
  · obtain ⟨q, rfl, hq⟩ := hwneg
    rw [get_height_width_fallback (num rmin) (num rmax) (num q) h (by simp [hq]) (by simp [hq])]
    exact hfb
  · rcases hh with hc | hh
    · exact absurd hc hwneg
    · rcases hw with rfl | rfl | ⟨q, rfl⟩
      · rcases hh with rfl | rfl | ⟨p, rfl, hp⟩
        · rw [get_height_width_fallback (num rmin) (num rmax) undefined undefined
            (by simp) (by simp)]
          exact hfb
        · rw [get_height_width_fallback (num rmin) (num rmax) undefined nan
            (by simp) (by simp)]
          exact hfb
        · rw [get_height_width_width_derived rmin rmax p undefined hp hmin (Or.inl rfl)]
          exact get_height_width_positive_inputs _ _ rmin rmax (mul_pos hp hmin) hp hmin hle
      · rcases hh with rfl | rfl | ⟨p, rfl, hp⟩
        · rw [get_height_width_fallback (num rmin) (num rmax) nan undefined
            (by simp) (by simp)]
          exact hfb
        · rw [get_height_width_fallback (num rmin) (num rmax) nan nan (by simp) (by simp)]
          exact hfb
        · rw [get_height_width_width_derived rmin rmax p nan hp hmin (Or.inr rfl)]
          exact get_height_width_positive_inputs _ _ rmin rmax (mul_pos hp hmin) hp hmin hle
      · have hq : 0 < q := by
          by_contra hc
          exact hwneg ⟨q, rfl, not_lt.mp hc⟩
        rcases hh with rfl | rfl | ⟨p, rfl, hp⟩
        · rw [get_height_width_height_derived rmin rmax q undefined hq hmin (Or.inl rfl)]
          exact get_height_width_positive_inputs _ _ rmin rmax hq (div_pos hq hmin) hmin hle
        · rw [get_height_width_height_derived rmin rmax q nan hq hmin (Or.inr rfl)]
          exact get_height_width_positive_inputs _ _ rmin rmax hq (div_pos hq hmin) hmin hle
        · exact get_height_width_positive_inputs q p rmin rmax hq hp hmin hle

/-- With the height absent or `NaN` and a positive width, the width is kept
and the height is `w / min_ratio`; with the width absent or `NaN` and a
positive height, the height is kept and the width is `h * min_ratio`. -/
theorem get_height_width_one_absent (rmin rmax q : ℚ) (v : JSVal)
    (hq : 0 < q) (hmin : 0 < rmin) (hle : rmin ≤ rmax) (hv : v = undefined ∨ v = nan) :
    _get_height_width (num rmax) (num rmin) v (num q) = ⟨num q, num (q / rmin)⟩
      ∧ _get_height_width (num rmax) (num rmin) (num q) v = ⟨num (q * rmin), num q⟩ := by
  have hqne : q ≠ 0 := ne_of_gt hq
  constructor
  · rw [get_height_width_height_derived rmin rmax q v hq hmin hv]
    have hr : q / (q / rmin) = rmin := div_div_cancel₀ hqne
    exact get_height_width_in_range q (q / rmin) rmin rmax hq (div_pos hq hmin)
      (by rw [hr]) (by rw [hr]; exact hle)
  · rw [get_height_width_width_derived rmin rmax q v hq hmin hv]
    have hr : q * rmin / q = rmin := by
      rw [mul_comm, mul_div_assoc, div_self hqne, mul_one]
    exact get_height_width_in_range (q * rmin) q rmin rmax (mul_pos hq hmin) hq
      (by rw [hr]) (by rw [hr]; exact hle)

/-- C1 (failing input). With a suggested height of `0` and a suggested width
of `100` (ratios `1/2` and `2`) the height is not recognised as undefined,
the ratio `100 / 0` is `Infinity`, and the function returns width `0` and
height `0`: the quotient width/height is `NaN`, which is neither `≥ 1/2` nor
`≤ 2`. -/
theorem get_height_width_zero_height_ratio :
    _get_height_width (num 2) (num (1/2)) (num 0) (num 100) = ⟨num 0, num 0⟩
      ∧ div (_get_height_width (num 2) (num (1/2)) (num 0) (num 100)).width
            (_get_height_width (num 2) (num (1/2)) (num 0) (num 100)).height = nan
      ∧ le (num (1/2)) (div (_get_height_width (num 2) (num (1/2)) (num 0) (num 100)).width
            (_get_height_width (num 2) (num (1/2)) (num 0) (num 100)).height) = false
      ∧ le (div (_get_height_width (num 2) (num (1/2)) (num 0) (num 100)).width
            (_get_height_width (num 2) (num (1/2)) (num 0) (num 100)).height) (num 2) = false := by
  have h : _get_height_width (num 2) (num (1/2)) (num 0) (num 100) = ⟨num 0, num 0⟩ := by
    norm_num [_get_height_width]
  rw [h]
  norm_num

/-- C2 (failing input). With a suggested height of `0` and a suggested width
of `300` (ratios `1/2` and `2`) the height is not recognised as undefined and
the function returns width `0` and height `0`: neither is positive.  With the
width absent and a height of `-100` it returns `-50` and `-100`. -/
theorem get_height_width_nonpositive_height :
    _get_height_width (num 2) (num (1/2)) (num 0) (num 300) = ⟨num 0, num 0⟩
      ∧ gt (_get_height_width (num 2) (num (1/2)) (num 0) (num 300)).width (num 0) = false
      ∧ gt (_get_height_width (num 2) (num (1/2)) (num 0) (num 300)).height (num 0) = false
      ∧ _get_height_width (num 2) (num (1/2)) (num (-100)) undefined
          = ⟨num (-50), num (-100)⟩ := by
  have h : _get_height_width (num 2) (num (1/2)) (num 0) (num 300) = ⟨num 0, num 0⟩ := by
    norm_num [_get_height_width]
  rw [h]
  norm_num [_get_height_width]

/-- C3 (counterexample). With both suggested dimensions absent and both ratios
equal to `1`, the fallback `640 × 480` has ratio `4/3 > 1` and is clamped: the
function returns `480 × 480`, not `640 × 480`. -/
theorem get_height_width_fallback_clamped :
    SpecUndefined undefined ∧ (0 : ℚ) < 1 ∧ (1 : ℚ) ≤ 1
      ∧ _get_height_width (num 1) (num 1) undefined undefined = ⟨num 480, num 480⟩
      ∧ _get_height_width (num 1) (num 1) undefined undefined ≠ ⟨num 640, num 480⟩ := by
  have h : _get_height_width (num 1) (num 1) undefined undefined = ⟨num 480, num 480⟩ := by
    norm_num [_get_height_width]
  refine ⟨Or.inl rfl, by norm_num, le_refl _, h, ?_⟩
  rw [h]
  intro hc
  have h2 : (480 : ℚ) = 640 := by
    injection hc with hw _
    injection hw
  norm_num at h2

/-- C3 (amended). When both suggested dimensions are undefined (absent, `NaN`
or `≤ 0`) and the height is recognised as such (it is absent or `NaN`, or the
width is a number `≤ 0`), the fallback `640 × 480` goes through the ratio
clamp: the result is `640 × 480` when `min_ratio ≤ 4/3 ≤ max_ratio`,
`(480 * max_ratio) × 480` when `max_ratio < 4/3`, and `640 × (640 / min_ratio)`
when `4/3 < min_ratio`. -/
theorem get_height_width_both_undefined (rmin rmax : ℚ) (w h : JSVal)
    (hmin : 0 < rmin) (hle : rmin ≤ rmax)
    (hw : SpecUndefined w) (hh : SpecUndefined h)
    (hflag : h = undefined ∨ h = nan ∨ ∃ q : ℚ, w = num q ∧ q ≤ 0) :
    (rmin ≤ 4/3 ∧ 4/3 ≤ rmax →
        _get_height_width (num rmax) (num rmin) h w = ⟨num 640, num 480⟩)
      ∧ (rmax < 4/3 →
        _get_height_width (num rmax) (num rmin) h w = ⟨num (480 * rmax), num 480⟩)
      ∧ (4/3 < rmin →
        _get_height_width (num rmax) (num rmin) h w = ⟨num 640, num (640 / rmin)⟩) := by
  have hwf : (isUndefined w || isNaN w || le w (num 0)) = true := by
    rcases hw with rfl | rfl | ⟨q, rfl, hq⟩
    · simp
    · simp
    · simp [hq]
  have hhf : (isUndefined h || isNaN h || le w (num 0)) = true := by
    rcases hflag with rfl | rfl | ⟨q, rfl, hq⟩
    · simp
    · simp
    · simp [hq]
  have h43 : (640 : ℚ) / 480 = 4 / 3 := by norm_num
  have hne : rmin ≠ 0 := ne_of_gt hmin
  refine ⟨?_, ?_, ?_⟩
  · rintro ⟨h1, h2⟩
    simp [_get_height_width, hwf, hhf, h43, h1, h2]
  · intro h1
    have h2 : ¬ (4 / 3 ≤ rmax) := not_le.mpr h1
    simp [_get_height_width, hwf, hhf, h43, h1, h2]
  · intro h1
    have h2 : ¬ (rmin ≤ 4 / 3) := not_le.mpr h1
    have h3 : ¬ (rmax < 4 / 3) := not_lt.mpr (le_trans (le_of_lt h1) hle)
    simp [_get_height_width, hwf, hhf, h43, h2, h3, hne]

/-- Witness for C3 (amended): both dimensions absent, ratios `1/2` and `2`. -/
theorem get_height_width_both_undefined_witness :
    _get_height_width (num 2) (num (1/2)) undefined undefined = ⟨num 640, num 480⟩ :=
  (get_height_width_both_undefined (1/2) 2 undefined undefined (by norm_num) (by norm_num)
    (Or.inl rfl) (Or.inl rfl) (Or.inl rfl)).1 ⟨by norm_num, by norm_num⟩

/-- C4 (failing input). With a suggested width of `0` and a suggested height
of `100` (ratios `1/2` and `2`) only the width is undefined, yet the height
test also fires (it compares the width with zero): the function returns the
fallback `640 × 480` instead of keeping the height `100` and deriving the
width `100 * 1/2 = 50`. -/
theorem get_height_width_zero_width :
    SpecUndefined (num 0) ∧ ¬ SpecUndefined (num 100)
      ∧ _get_height_width (num 2) (num (1/2)) (num 100) (num 0) = ⟨num 640, num 480⟩
      ∧ _get_height_width (num 2) (num (1/2)) (num 100) (num 0)
          ≠ ⟨num (100 * (1/2)), num 100⟩ := by
  have h : _get_height_width (num 2) (num (1/2)) (num 100) (num 0) = ⟨num 640, num 480⟩ := by
    norm_num [_get_height_width]
  refine ⟨Or.inr (Or.inr ⟨0, rfl, le_refl _⟩), ?_, h, ?_⟩
  · rintro (hc | hc | ⟨q, hq, hq0⟩)
    · exact JSVal.noConfusion hc
    · exact JSVal.noConfusion hc
    · injection hq with hq
      rw [← hq] at hq0
      norm_num at hq0
  · rw [h]
    intro hc
    have h2 : (480 : ℚ) = 100 := by
      injection hc with _ hh
      injection hh
    norm_num at h2

/-- C5. For positive suggested width `w` and height `h` and positive
`min_ratio ≤ max_ratio`, with `r = w / h`: the pair is returned unchanged when
`min_ratio ≤ r ≤ max_ratio`; the height is kept and the width becomes
`h * max_ratio` when `r > max_ratio`; the width is kept and the height becomes
`w / min_ratio` when `r < min_ratio`.  In particular `(1000, 100)` gives
`(200, 100)` and `(100, 1000)` gives `(100, 200)` for the ratios `1/2` and `2`. -/
theorem get_height_width_both_defined (w h rmin rmax : ℚ)
    (hw : 0 < w) (hh : 0 < h) (hmin : 0 < rmin) (hle : rmin ≤ rmax) :
    (rmin ≤ w / h ∧ w / h ≤ rmax →
        _get_height_width (num rmax) (num rmin) (num h) (num w) = ⟨num w, num h⟩)
      ∧ (rmax < w / h →
        _get_height_width (num rmax) (num rmin) (num h) (num w) = ⟨num (h * rmax), num h⟩)
      ∧ (w / h < rmin →
        _get_height_width (num rmax) (num rmin) (num h) (num w) = ⟨num w, num (w / rmin)⟩)
      ∧ _get_height_width (num 2) (num (1/2)) (num 100) (num 1000) = ⟨num 200, num 100⟩
      ∧ _get_height_width (num 2) (num (1/2)) (num 1000) (num 100) = ⟨num 100, num 200⟩ := by
  refine ⟨?_, ?_, ?_, ?_, ?_⟩
  · rintro ⟨h1, h2⟩
    exact get_height_width_in_range w h rmin rmax hw hh h1 h2
  · intro h1
    exact get_height_width_too_wide w h rmin rmax hw hh h1
  · intro h1
    exact get_height_width_too_tall w h rmin rmax hw hh hmin hle h1
  · norm_num [_get_height_width]
  · norm_num [_get_height_width]

/-- Witness for C5: the two worked examples of the specification, obtained
from the general statement at `(1000, 100)` and `(100, 1000)`. -/
theorem get_height_width_both_defined_witness :
    _get_height_width (num 2) (num (1/2)) (num 100) (num 1000) = ⟨num (100 * 2), num 100⟩
      ∧ _get_height_width (num 2) (num (1/2)) (num 1000) (num 100)
          = ⟨num 100, num (100 / (1/2))⟩ :=
  ⟨(get_height_width_both_defined 1000 100 (1/2) 2 (by norm_num) (by norm_num) (by norm_num)
      (by norm_num)).2.1 (by norm_num),
   (get_height_width_both_defined 100 1000 (1/2) 2 (by norm_num) (by norm_num) (by norm_num)
      (by norm_num)).2.2.1 (by norm_num)⟩

/-! ## Lemmas on the padding registry -/

open Example

theorem foldl_max_ge_init (b : JSObj ℚ) (init : ℚ) :
    init ≤ b.foldl (fun mx entry => max mx entry.2) init := by
  induction b generalizing init with
  | nil => exact le_refl _
  | cons e t ih => exact le_trans (le_max_left _ _) (ih _)

theorem foldl_max_ge_mem (b : JSObj ℚ) (init : ℚ) (e : String × ℚ) (he : e ∈ b) :
    e.2 ≤ b.foldl (fun mx entry => max mx entry.2) init := by
  induction b generalizing init with
  | nil => cases he
  | cons e' t ih =>
    rcases List.mem_cons.mp he with rfl | hmem
    · exact le_trans (le_max_right _ _) (foldl_max_ge_init t _)
    · exact ih _ hmem

theorem foldl_max_attained (b : JSObj ℚ) (init : ℚ) :
    b.foldl (fun mx entry => max mx entry.2) init = init
      ∨ ∃ e ∈ b, e.2 = b.foldl (fun mx entry => max mx entry.2) init := by
  induction b generalizing init with
  | nil => exact Or.inl rfl
  | cons e' t ih =>
    rcases ih (max init e'.2) with h | ⟨e, he, h⟩
    · rcases max_choice init e'.2 with hm | hm
      · left
        simp only [List.foldl_cons]
        rw [h, hm]
      · right
        refine ⟨e', List.mem_cons_self _ _, ?_⟩
        simp only [List.foldl_cons]
        rw [h, hm]
    · exact Or.inr ⟨e, List.mem_cons_of_mem _ he, h⟩

theorem bucket_max_isMax (b : JSObj ℚ) (hnn : ∀ e ∈ b, 0 ≤ e.2) :
    IsMaxOfBucket (some b) (bucket_max b) := by
  refine ⟨fun e he => foldl_max_ge_mem b 0 e he, ?_, ?_⟩
  · intro hb
    subst hb
    rfl
  · intro hb
    rcases foldl_max_attained b 0 with h | h
    · obtain ⟨e, t, rfl⟩ := List.exists_cons_of_ne_nil hb
      refine ⟨e, List.mem_cons_self _ _, ?_⟩
      have h1 : e.2 ≤ bucket_max (e :: t) := foldl_max_ge_mem _ 0 e (List.mem_cons_self _ _)
      have h2 : 0 ≤ e.2 := hnn e (List.mem_cons_self _ _)
      have h3 : bucket_max (e :: t) = 0 := h
      rw [h3] at h1 ⊢
      exact le_antisymm h1 h2
    · exact h

theorem mem_of_get_eq_some {α : Type} (o : JSObj α) (k : String) (v : α)
    (h : o.get k = some v) : (k, v) ∈ o := by
  induction o with
  | nil => simp [JSObj.get] at h
  | cons e t ih =>
    obtain ⟨k1, v1⟩ := e
    by_cases hk : k1 = k
    · subst hk
      simp [JSObj.get] at h
      simp [h]
    · simp [JSObj.get, hk] at h
      exact List.mem_cons_of_mem _ (ih h)

theorem get_foldl_aggregate (d : PadDict) (acc : JSObj ℚ) (s : String)
    (h : d.keys.Nodup) :
    (d.foldl (fun arr entry => arr.set entry.1 (bucket_max entry.2)) acc).get s
      = match d.get s with
        | some b => some (bucket_max b)
        | none => acc.get s := by
  induction d generalizing acc with
  | nil => rfl
  | cons e t ih =>
    obtain ⟨k, b⟩ := e
    simp only [JSObj.keys, List.map_cons, List.nodup_cons] at h
    simp only [List.foldl_cons]
    rw [ih _ h.2]
    by_cases hk : k = s
    · subst hk
      have hnone : JSObj.get t k = none := JSObj.get_eq_none_of_not_mem_keys t k h.1
      simp [JSObj.get, hnone, JSObj.get_set_self]
    · have hs : s ≠ k := fun hc => hk hc.symm
      simp [JSObj.get, hk, JSObj.get_set_ne _ _ _ _ hs]

theorem effective_padding_aggregate (d : PadDict) (s : String) (h : d.keys.Nodup)
    (hnn : ∀ b, d.get s = some b → ∀ e ∈ b, 0 ≤ e.2) :
    IsMaxOfBucket (d.get s) (effective_padding (aggregate d) s) := by
  unfold effective_padding aggregate
  rw [get_foldl_aggregate d [] s h]
  cases hget : d.get s with
  | none => simp [IsMaxOfBucket, JSObj.get]
  | some b => exact bucket_max_isMax b (hnn b hget)

theorem delete_eq_nil_iff (b : JSObj ℚ) (key : String) :
    b.delete key = [] ↔ ∀ k, k ≠ key → b.get k = none := by
  constructor
  · intro h k hk
    rw [← JSObj.get_delete_ne b key k hk, h]
    rfl
  · intro h
    apply JSObj.eq_nil_of_get_eq_none
    intro k
    by_cases hk : k = key
    · subst hk
      exact JSObj.get_delete_self b k
    · rw [JSObj.get_delete_ne b key k hk]
      exact h k hk

theorem remove_from_padding_dict_no_bucket (dict : PadDict) (mark_view : MarkView)
    (sm : ScaleModel) (hget : dict.get sm.id = none) :
    remove_from_padding_dict dict mark_view (some sm) = dict := by
  simp only [remove_from_padding_dict, hget]

theorem remove_from_padding_dict_last (dict : PadDict) (mark_view : MarkView)
    (sm : ScaleModel) (b : JSObj ℚ) (hget : dict.get sm.id = some b)
    (hemp : b.delete (mark_key mark_view) = []) :
    remove_from_padding_dict dict mark_view (some sm) = dict.delete sm.id := by
  have hlen : (b.delete (mark_key mark_view)).keys.length = 0 :=
    (JSObj.keys_length_eq_zero _).mpr hemp
  simp only [remove_from_padding_dict, hget, hlen, if_true]

theorem remove_from_padding_dict_other (dict : PadDict) (mark_view : MarkView)
    (sm : ScaleModel) (b : JSObj ℚ) (hget : dict.get sm.id = some b)
    (hemp : b.delete (mark_key mark_view) ≠ []) :
    remove_from_padding_dict dict mark_view (some sm)
      = dict.set sm.id (b.delete (mark_key mark_view)) := by
  have hlen : ¬ (b.delete (mark_key mark_view)).keys.length = 0 :=
    fun hc => hemp ((JSObj.keys_length_eq_zero _).mp hc)
  simp only [remove_from_padding_dict, hget, hlen, if_false]

/-- After `remove_from_padding_dict` the bucket of the given scale, when there
is one left, has no entry for the mark. -/
theorem remove_from_padding_dict_entry_gone (dict : PadDict) (mark_view : MarkView)
    (sm : ScaleModel) (b1 : JSObj ℚ)
    (h : (remove_from_padding_dict dict mark_view (some sm)).get sm.id = some b1) :
    b1.get (mark_key mark_view) = none := by
  cases hget : dict.get sm.id with
  | none =>
    rw [remove_from_padding_dict_no_bucket dict mark_view sm hget, hget] at h
    cases h
  | some b =>
    by_cases hemp : b.delete (mark_key mark_view) = []
    · rw [remove_from_padding_dict_last dict mark_view sm b hget hemp,
        JSObj.get_delete_self] at h
      cases h
    · rw [remove_from_padding_dict_other dict mark_view sm b hget hemp,
        JSObj.get_set_self] at h
      cases h
      exact JSObj.get_delete_self b _

/-- On a registry without an empty bucket, `remove_from_padding_dict` leaves
the buckets of all other scales as they are; in the bucket of the given scale it removes the entry of the given
mark and keeps every other entry; the bucket is deleted exactly when no other
entry is left in it; when the scale is absent, has no bucket, or its bucket
has no entry for the mark, the registry is returned unchanged; and applying
it twice gives the same registry as applying it once. -/
theorem remove_from_padding_dict_of_noEmptyBucket (dict : PadDict) (mark_view : MarkView)
    (scale_model : Option ScaleModel) (hne : NoEmptyBucket dict) :
    (∀ s, (∀ sm, scale_model = some sm → s ≠ sm.id) →
        (remove_from_padding_dict dict mark_view scale_model).get s = dict.get s)
      ∧ (∀ sm b, scale_model = some sm → dict.get sm.id = some b →
          ((∀ k, k ≠ mark_key mark_view → b.get k = none) →
            (remove_from_padding_dict dict mark_view scale_model).get sm.id = none)
          ∧ ((∃ k, k ≠ mark_key mark_view ∧ b.get k ≠ none) →
            ∃ b1, (remove_from_padding_dict dict mark_view scale_model).get sm.id = some b1
              ∧ b1.get (mark_key mark_view) = none
              ∧ ∀ k, k ≠ mark_key mark_view → b1.get k = b.get k))
      ∧ ((scale_model = none
            ∨ (∃ sm, scale_model = some sm ∧ dict.get sm.id = none)
            ∨ (∃ sm b, scale_model = some sm ∧ dict.get sm.id = some b
                ∧ b.get (mark_key mark_view) = none)) →
          remove_from_padding_dict dict mark_view scale_model = dict)
      ∧ remove_from_padding_dict (remove_from_padding_dict dict mark_view scale_model)
            mark_view scale_model
          = remove_from_padding_dict dict mark_view scale_model := by
  cases scale_model with
  | none =>
    refine ⟨fun _ _ => rfl, ?_, fun _ => rfl, rfl⟩
    intro sm b hsm
    cases hsm
  | some sm =>
    cases hget : dict.get sm.id with
    | none =>
      have hres : remove_from_padding_dict dict mark_view (some sm) = dict :=
        remove_from_padding_dict_no_bucket dict mark_view sm hget
      rw [hres]
      refine ⟨fun _ _ => rfl, ?_, fun _ => rfl, hres⟩
      intro sm1 b hsm hb
      cases hsm
      rw [hget] at hb
      cases hb
    | some b =>
      by_cases hemp : b.delete (mark_key mark_view) = []
      · have hres : remove_from_padding_dict dict mark_view (some sm)
            = dict.delete sm.id :=
          remove_from_padding_dict_last dict mark_view sm b hget hemp
        have hres2 : remove_from_padding_dict (dict.delete sm.id) mark_view (some sm)
            = dict.delete sm.id :=
          remove_from_padding_dict_no_bucket _ mark_view sm (JSObj.get_delete_self dict sm.id)
        rw [hres]
        refine ⟨?_, ?_, ?_, hres2⟩
        · intro s hs
          exact JSObj.get_delete_ne dict sm.id s (hs sm rfl)
        · intro sm1 b1 hsm hb
          cases hsm
          rw [hget] at hb
          cases hb
          refine ⟨fun _ => JSObj.get_delete_self dict sm.id, ?_⟩
          rintro ⟨k, hk, hkb⟩
          exact absurd ((delete_eq_nil_iff b _).mp hemp k hk) hkb
        · rintro (hc | ⟨sm1, hsm, hb⟩ | ⟨sm1, b1, hsm, hb, hkey⟩)
          · cases hc
          · cases hsm
            rw [hget] at hb
            cases hb
          · cases hsm
            rw [hget] at hb
            cases hb
            rw [JSObj.delete_eq_self b _ hkey] at hemp
            exact absurd hemp (hne sm.id b hget)
      · have hres : remove_from_padding_dict dict mark_view (some sm)
            = dict.set sm.id (b.delete (mark_key mark_view)) :=
          remove_from_padding_dict_other dict mark_view sm b hget hemp
        have hdd : (b.delete (mark_key mark_view)).delete (mark_key mark_view)
            = b.delete (mark_key mark_view) :=
          JSObj.delete_eq_self _ _ (JSObj.get_delete_self b _)
        have hres2 : remove_from_padding_dict
              (dict.set sm.id (b.delete (mark_key mark_view))) mark_view (some sm)
            = dict.set sm.id (b.delete (mark_key mark_view)) := by
          rw [remove_from_padding_dict_other _ mark_view sm _ (JSObj.get_set_self _ _ _)
            (by rw [hdd]; exact hemp), hdd]
          exact JSObj.set_eq_self _ _ _ (JSObj.get_set_self _ _ _)
        rw [hres]
        refine ⟨?_, ?_, ?_, hres2⟩
        · intro s hs
          exact JSObj.get_set_ne dict sm.id s _ (hs sm rfl)
        · intro sm1 b1 hsm hb
          cases hsm
          rw [hget] at hb
          cases hb
          refine ⟨?_, ?_⟩
          · intro hall
            exact absurd ((delete_eq_nil_iff b _).mpr hall) hemp
          · intro _
            exact ⟨_, JSObj.get_set_self _ _ _, JSObj.get_delete_self b _,
              fun k hk => JSObj.get_delete_ne b _ k hk⟩
        · rintro (hc | ⟨sm1, hsm, hb⟩ | ⟨sm1, b1, hsm, hb, hkey⟩)
          · cases hc
          · cases hsm
            rw [hget] at hb
            cases hb
          · cases hsm
            rw [hget] at hb
            cases hb
            rw [JSObj.delete_eq_self b _ hkey]
            exact JSObj.set_eq_self _ _ _ hget

/-! ## The registries the figure can hold -/

theorem noEmptyBucket_nil : NoEmptyBucket [] := by
  intro s b h
  simp [JSObj.get] at h

theorem noEmptyBucket_remove (dict : PadDict) (mark_view : MarkView)
    (scale_model : Option ScaleModel) (h : NoEmptyBucket dict) :
    NoEmptyBucket (remove_from_padding_dict dict mark_view scale_model) := by
  cases scale_model with
  | none => exact h
  | some sm =>
    cases hget : dict.get sm.id with
    | none =>
      rw [remove_from_padding_dict_no_bucket dict mark_view sm hget]
      exact h
    | some b =>
      by_cases hemp : b.delete (mark_key mark_view) = []
      · intro s b1 hs
        rw [remove_from_padding_dict_last dict mark_view sm b hget hemp] at hs
        by_cases hsid : s = sm.id
        · subst hsid
          rw [JSObj.get_delete_self] at hs
          cases hs
        · rw [JSObj.get_delete_ne _ _ _ hsid] at hs
          exact h s b1 hs
      · intro s b1 hs
        rw [remove_from_padding_dict_other dict mark_view sm b hget hemp] at hs
        by_cases hsid : s = sm.id
        · subst hsid
          rw [JSObj.get_set_self] at hs
          cases hs
          exact hemp
        · rw [JSObj.get_set_ne _ _ _ _ hsid] at hs
          exact h s b1 hs

theorem noEmptyBucket_update (dict dict1 : PadDict) (mark_view : MarkView)
    (scale_model : Option ScaleModel) (value : ℚ) (h : NoEmptyBucket dict)
    (hres : update_padding_dict dict mark_view scale_model value = some dict1) :
    NoEmptyBucket dict1 := by
  cases scale_model with
  | none => simp [update_padding_dict] at hres
  | some sm =>
    cases hget : dict.get sm.id with
    | none =>
      simp [update_padding_dict, hget, JSObj.get_set_self] at hres
      subst hres
      intro s b1 hs
      by_cases hsid : s = sm.id
      · subst hsid
        rw [JSObj.get_set_self] at hs
        cases hs
        exact JSObj.set_ne_nil _ _ _
      · rw [JSObj.get_set_ne _ _ _ _ hsid, JSObj.get_set_ne _ _ _ _ hsid] at hs
        exact h s b1 hs
    | some b =>
      simp [update_padding_dict, hget] at hres
      subst hres
      intro s b1 hs
      by_cases hsid : s = sm.id
      · subst hsid
        rw [JSObj.get_set_self] at hs
        cases hs
        exact JSObj.set_ne_nil _ _ _
      · rw [JSObj.get_set_ne _ _ _ _ hsid] at hs
        exact h s b1 hs

theorem keys_nodup_remove (dict : PadDict) (mark_view : MarkView)
    (scale_model : Option ScaleModel) (h : dict.keys.Nodup) :
    (remove_from_padding_dict dict mark_view scale_model).keys.Nodup := by
  cases scale_model with
  | none => exact h
  | some sm =>
    cases hget : dict.get sm.id with
    | none =>
      rw [remove_from_padding_dict_no_bucket dict mark_view sm hget]
      exact h
    | some b =>
      by_cases hemp : b.delete (mark_key mark_view) = []
      · rw [remove_from_padding_dict_last dict mark_view sm b hget hemp]
        exact JSObj.keys_nodup_delete dict sm.id h
      · rw [remove_from_padding_dict_other dict mark_view sm b hget hemp]
        exact JSObj.keys_nodup_set dict sm.id _ h

theorem keys_nodup_update (dict dict1 : PadDict) (mark_view : MarkView)
    (scale_model : Option ScaleModel) (value : ℚ) (h : dict.keys.Nodup)
    (hres : update_padding_dict dict mark_view scale_model value = some dict1) :
    dict1.keys.Nodup := by
  cases scale_model with
  | none => simp [update_padding_dict] at hres
  | some sm =>
    cases hget : dict.get sm.id with
    | none =>
      simp [update_padding_dict, hget, JSObj.get_set_self] at hres
      subst hres
      exact JSObj.keys_nodup_set _ _ _ (JSObj.keys_nodup_set _ _ _ h)
    | some b =>
      simp [update_padding_dict, hget] at hres
      subst hres
      exact JSObj.keys_nodup_set _ _ _ h

/-- Every registry the figure can hold has no repeated scale id and no empty
bucket. -/
theorem registry_wellformed (dict : PadDict) (h : Registry dict) :
    dict.keys.Nodup ∧ NoEmptyBucket dict := by
  induction h with
  | empty => exact ⟨List.nodup_nil, noEmptyBucket_nil⟩
  | update dict dict1 mark_view scale_model value _ hres ih =>
    exact ⟨keys_nodup_update dict dict1 mark_view scale_model value ih.1 hres,
      noEmptyBucket_update dict dict1 mark_view scale_model value ih.2 hres⟩
  | remove dict mark_view scale_model _ ih =>
    exact ⟨keys_nodup_remove dict mark_view scale_model ih.1,
      noEmptyBucket_remove dict mark_view scale_model ih.2⟩

/-- `update_padding_dict` succeeds whenever it is given a scale model. -/
theorem update_padding_dict_isSome (dict : PadDict) (mark_view : MarkView)
    (sm : ScaleModel) (value : ℚ) :
    ∃ dict1, update_padding_dict dict mark_view (some sm) value = some dict1 := by
  cases hget : dict.get sm.id with
  | none =>
    exact ⟨(dict.set sm.id []).set sm.id (JSObj.set [] (mark_key mark_view) value),
      by simp [update_padding_dict, hget, JSObj.get_set_self]⟩
  | some b =>
    exact ⟨dict.set sm.id (b.set (mark_key mark_view) value),
      by simp [update_padding_dict, hget]⟩

/-- `add_mark` never throws: the fallback supplies a scale model. -/
theorem add_mark_isSome (f : State) (view : MarkView) : ∃ g, add_mark f view = some g := by
  unfold add_mark
  cases hx : view.model.scales.index (view.model.get_key_for_dimension "x") <;>
    cases hy : view.model.scales.index (view.model.get_key_for_dimension "y")
  all_goals
    simp only []
  · obtain ⟨x, hx1⟩ := update_padding_dict_isSome f.x_pad_dict view f.scale_x view.x_padding
    obtain ⟨y, hy1⟩ := update_padding_dict_isSome f.y_pad_dict view f.scale_y view.y_padding
    exact ⟨_, by rw [hx1, hy1]⟩
  · rename_i sy
    obtain ⟨x, hx1⟩ := update_padding_dict_isSome f.x_pad_dict view f.scale_x view.x_padding
    obtain ⟨y, hy1⟩ := update_padding_dict_isSome f.y_pad_dict view sy view.y_padding
    exact ⟨_, by rw [hx1, hy1]⟩
  · rename_i sx
    obtain ⟨x, hx1⟩ := update_padding_dict_isSome f.x_pad_dict view sx view.x_padding
    obtain ⟨y, hy1⟩ := update_padding_dict_isSome f.y_pad_dict view f.scale_y view.y_padding
    exact ⟨_, by rw [hx1, hy1]⟩
  · rename_i sx sy
    obtain ⟨x, hx1⟩ := update_padding_dict_isSome f.x_pad_dict view sx view.x_padding
    obtain ⟨y, hy1⟩ := update_padding_dict_isSome f.y_pad_dict view sy view.y_padding
    exact ⟨_, by rw [hx1, hy1]⟩

theorem registry_two_marks : Registry two_marks :=
  Registry.update [("s", [("a_v1", 5)])] two_marks mark_b (some scale_s) 12
    (Registry.update [] [("s", [("a_v1", 5)])] mark_a (some scale_s) 5 Registry.empty
      (by decide))
    (by decide)

/-! ## Properties of the padding registry, the mark lifecycle and the ranges -/

/-- C6. For a registry of non-negative paddings, after `update_paddings` the
effective padding of every scale (its entry of `x_padding_arr` /
`y_padding_arr`, read as `0` when absent) is the maximum of the paddings in
the bucket of that scale in `x_pad_dict` / `y_pad_dict`, and `0` when the
scale has no bucket. -/
theorem update_paddings_effective (f : State) (scale_id : String)
    (hx : Registry f.x_pad_dict) (hy : Registry f.y_pad_dict)
    (hxn : ∀ s b, f.x_pad_dict.get s = some b → ∀ e ∈ b, 0 ≤ e.2)
    (hyn : ∀ s b, f.y_pad_dict.get s = some b → ∀ e ∈ b, 0 ≤ e.2) :
    IsMaxOfBucket (f.x_pad_dict.get scale_id)
        (effective_padding (update_paddings f).x_padding_arr scale_id)
      ∧ IsMaxOfBucket (f.y_pad_dict.get scale_id)
        (effective_padding (update_paddings f).y_padding_arr scale_id) :=
  ⟨effective_padding_aggregate f.x_pad_dict scale_id
      (registry_wellformed f.x_pad_dict hx).1 (hxn scale_id),
   effective_padding_aggregate f.y_pad_dict scale_id
      (registry_wellformed f.y_pad_dict hy).1 (hyn scale_id)⟩

/-- Witness for C6: the two marks of the specification's example. -/
theorem update_paddings_effective_witness :
    IsMaxOfBucket (JSObj.get two_marks "s")
        (effective_padding (update_paddings (figure two_marks [] [] [])).x_padding_arr "s")
      ∧ (update_padding_dict [] mark_a (some scale_s) 5).bind
          (fun d => update_padding_dict d mark_b (some scale_s) 12) = some two_marks
      ∧ effective_padding (update_paddings (figure two_marks [] [] [])).x_padding_arr "s" = 12
      ∧ remove_from_padding_dict two_marks mark_b (some scale_s) = one_mark
      ∧ effective_padding (update_paddings (figure one_mark [] [] [])).x_padding_arr "s" = 5
      ∧ remove_from_padding_dict one_mark mark_a (some scale_s) = []
      ∧ effective_padding (update_paddings (figure [] [] [] [])).x_padding_arr "s" = 0 := by
  refine ⟨(update_paddings_effective (figure two_marks [] [] []) "s" registry_two_marks
    Registry.empty ?_ ?_).1, by decide, ?_, by decide, ?_, by decide, by decide⟩
  · intro s b hb e he
    by_cases hs : s = "s"
    · subst hs
      have hb2 : b = [("a_v1", 5), ("b_v2", 12)] := by
        simpa [figure, two_marks, JSObj.get] using hb.symm
      subst hb2
      simp at he
      rcases he with rfl | rfl <;> norm_num
    · simp [figure, two_marks, JSObj.get, Ne.symm hs] at hb
  · intro s b hb
    simp [figure, JSObj.get] at hb
  · norm_num [effective_padding, update_paddings, figure, two_marks, aggregate, bucket_max,
      JSObj.set, JSObj.get]
  · norm_num [effective_padding, update_paddings, figure, one_mark, aggregate, bucket_max,
      JSObj.set, JSObj.get]

/-- C7. On every registry, `remove_from_padding_dict` leaves the buckets of all
other scales as they are; in the bucket of the given scale it removes the
entry of the given mark and keeps every other entry; the bucket is deleted
exactly when no other entry is left in it; when the scale is absent, has no
bucket, or its bucket has no entry for the mark, the registry is returned
unchanged; and applying it twice gives the same registry as applying it
once. -/
theorem remove_from_padding_dict_spec (dict : PadDict) (mark_view : MarkView)
    (scale_model : Option ScaleModel) (hreg : Registry dict) :
    (∀ s, (∀ sm, scale_model = some sm → s ≠ sm.id) →
        (remove_from_padding_dict dict mark_view scale_model).get s = dict.get s)
      ∧ (∀ sm b, scale_model = some sm → dict.get sm.id = some b →
          ((∀ k, k ≠ mark_key mark_view → b.get k = none) →
            (remove_from_padding_dict dict mark_view scale_model).get sm.id = none)
          ∧ ((∃ k, k ≠ mark_key mark_view ∧ b.get k ≠ none) →
            ∃ b1, (remove_from_padding_dict dict mark_view scale_model).get sm.id = some b1
              ∧ b1.get (mark_key mark_view) = none
              ∧ ∀ k, k ≠ mark_key mark_view → b1.get k = b.get k))
      ∧ ((scale_model = none
            ∨ (∃ sm, scale_model = some sm ∧ dict.get sm.id = none)
            ∨ (∃ sm b, scale_model = some sm ∧ dict.get sm.id = some b
                ∧ b.get (mark_key mark_view) = none)) →
          remove_from_padding_dict dict mark_view scale_model = dict)
      ∧ remove_from_padding_dict (remove_from_padding_dict dict mark_view scale_model)
            mark_view scale_model
          = remove_from_padding_dict dict mark_view scale_model :=
  remove_from_padding_dict_of_noEmptyBucket dict mark_view scale_model
    (registry_wellformed dict hreg).2

/-- Witness for C7: removing `mark_b` from the registry of the two marks. -/
theorem remove_from_padding_dict_spec_witness :
    Registry two_marks
      ∧ remove_from_padding_dict two_marks mark_b (some scale_s) = one_mark
      ∧ remove_from_padding_dict (remove_from_padding_dict two_marks mark_b (some scale_s))
            mark_b (some scale_s)
          = remove_from_padding_dict two_marks mark_b (some scale_s) :=
  ⟨registry_two_marks, by decide,
    (remove_from_padding_dict_spec two_marks mark_b (some scale_s)
      registry_two_marks).2.2.2⟩

/-- C8 (failing input). A mark that names no scale of its own is registered by
`add_mark` under the figure scales `"fx"` and `"fy"`; `remove_mark` looks up
the scales of the mark only, finds none, and removes nothing: the entry of the
mark is still in `x_pad_dict` and in `y_pad_dict`. -/
theorem remove_mark_default_scale_entry_stays :
    (add_mark (figure [] [] [] []) mark_c).map (fun f => f.x_pad_dict)
        = some [("fx", [("c_v3", 5)])]
      ∧ (add_mark (figure [] [] [] []) mark_c).map (fun f => f.y_pad_dict)
        = some [("fy", [("c_v3", 3)])]
      ∧ (add_mark (figure [] [] [] []) mark_c).map (fun f => (remove_mark f mark_c).x_pad_dict)
        = some [("fx", [("c_v3", 5)])]
      ∧ (add_mark (figure [] [] [] []) mark_c).map (fun f => (remove_mark f mark_c).y_pad_dict)
        = some [("fy", [("c_v3", 3)])] := by
  refine ⟨?_, ?_, ?_, ?_⟩ <;> decide

/-- C9 (failing input). A mark registered by `add_mark` under the figure
scales `"fx"` and `"fy"` is then bound to the scales `"s1"` and `"s2"`.
`mark_scales_updated` finds no previous scale to remove the mark from, and
adds the new entries: the mark now has two entries in `x_pad_dict` (under
`"fx"` and under `"s1"`) and two in `y_pad_dict`. -/
theorem mark_scales_updated_default_scale_entry_stays :
    ((add_mark (figure [] [] [] []) mark_c).bind
        (fun f => mark_scales_updated f mark_c_rebound)).map (fun f => f.x_pad_dict)
        = some [("fx", [("c_v3", 5)]), ("s1", [("c_v3", 5)])]
      ∧ ((add_mark (figure [] [] [] []) mark_c).bind
        (fun f => mark_scales_updated f mark_c_rebound)).map (fun f => f.y_pad_dict)
        = some [("fy", [("c_v3", 3)]), ("s2", [("c_v3", 3)])] := by
  refine ⟨?_, ?_⟩ <;> decide

/-- C10. When the scale does not allow padding, `padded_range` is `range`,
which is `[0, plotarea_width]` for `"x"` and `[plotarea_height, 0]` for `"y"`.
Otherwise, with `fig_pad` the plot-area size times the figure padding
fraction and `scale_pad` the effective padding of the scale (`0` when it has
none), `padded_range` is `[fig_pad + scale_pad, plotarea_width - fig_pad -
scale_pad]` for `"x"` and `[plotarea_height - scale_pad - fig_pad, scale_pad +
fig_pad]` for `"y"`. -/
theorem padded_range_spec (f : State) (scale_model : ScaleModel) :
    (scale_model.allow_padding = false →
        ∀ direction, padded_range f direction scale_model = range f direction)
      ∧ range f "x" = some (0, f.plotarea_width)
      ∧ range f "y" = some (f.plotarea_height, 0)
      ∧ (scale_model.allow_padding = true →
          padded_range f "x" scale_model
              = some (f.plotarea_width * f.figure_padding_x
                        + effective_padding f.x_padding_arr scale_model.id,
                      f.plotarea_width - f.plotarea_width * f.figure_padding_x
                        - effective_padding f.x_padding_arr scale_model.id)
            ∧ padded_range f "y" scale_model
              = some (f.plotarea_height - effective_padding f.y_padding_arr scale_model.id
                        - f.plotarea_height * f.figure_padding_y,
                      effective_padding f.y_padding_arr scale_model.id
                        + f.plotarea_height * f.figure_padding_y))
      ∧ (∀ scale_id, f.x_padding_arr.get scale_id = none →
          effective_padding f.x_padding_arr scale_id = 0)
      ∧ (∀ scale_id, f.y_padding_arr.get scale_id = none →
          effective_padding f.y_padding_arr scale_id = 0) := by
  refine ⟨?_, ?_, ?_, ?_, ?_, ?_⟩
  · intro h direction
    simp [padded_range, h]
  · simp [range]
  · simp [range]
  · intro h
    simp [padded_range, h]
  · intro s hs
    simp [effective_padding, hs]
  · intro s hs
    simp [effective_padding, hs]

/-- Witness for C10: a scale with an effective padding of `12` on a plot area
of `600 × 400` with a figure padding fraction of `1/10`, and a scale that
does not allow padding. -/
theorem padded_range_spec_witness :
    padded_range (figure [] [] [("s", 12)] [("s", 12)]) "x" scale_s = some (72, 528)
      ∧ padded_range (figure [] [] [("s", 12)] [("s", 12)]) "y" scale_s = some (348, 52)
      ∧ padded_range (figure [] [] [("s", 12)] [("s", 12)]) "x" fig_scale_x = some (0, 600)
      ∧ padded_range (figure [] [] [("s", 12)] [("s", 12)]) "y" fig_scale_x
          = some (400, 0) := by
  have h := padded_range_spec (figure [] [] [("s", 12)] [("s", 12)]) scale_s
  have h2 := padded_range_spec (figure [] [] [("s", 12)] [("s", 12)]) fig_scale_x
  have ex : effective_padding [("s", 12)] "s" = 12 := by
    simp [effective_padding, JSObj.get]
  refine ⟨?_, ?_, ?_, ?_⟩
  · rw [(h.2.2.2.1 rfl).1]
    simp only [figure, scale_s, ex]
    norm_num
  · rw [(h.2.2.2.1 rfl).2]
    simp only [figure, scale_s, ex]
    norm_num
  · rw [h2.1 rfl "x", h2.2.1]
    rfl
  · rw [h2.1 rfl "y", h2.2.2.1]
    rfl

/-! ## Properties of the figure geometry -/

@[simp]
theorem JSVal.sub_num_num (x y : ℚ) : sub (num x) (num y) = num (x - y) := rfl

theorem plotareaFresh_update_plotarea_dimensions (g : Geometry) :
    PlotareaFresh (update_plotarea_dimensions g) :=
  ⟨rfl, rfl⟩

theorem plotareaFresh_apply (step : GeometryStep) (g : Geometry)
    (h : step.isRelayout = false) : PlotareaFresh (step.apply g) := by
  cases step with
  | render max_ratio min_ratio min_height min_width fig_margin =>
    exact plotareaFresh_update_plotarea_dimensions _
  | relayout max_ratio min_ratio clientHeight clientWidth =>
    simp [GeometryStep.isRelayout] at h
  | relayout_animation_frame fig_margin => exact plotareaFresh_update_plotarea_dimensions _
  | update_plotarea_dimensions => exact plotareaFresh_update_plotarea_dimensions _

theorem run_steps_append (steps : List GeometryStep) (last : GeometryStep) (g : Geometry) :
    run_steps (steps ++ [last]) g = last.apply (run_steps steps g) := by
  simp [run_steps, List.foldl_append]

theorem get_height_width_640_480 :
    _get_height_width (num 2) (num (1/2)) (num 480) (num 640) = ⟨num 640, num 480⟩ := by
  norm_num [_get_height_width]

theorem get_height_width_1000_300 :
    _get_height_width (num 2) (num (1/2)) (num 300) (num 1000) = ⟨num 600, num 300⟩ := by
  norm_num [_get_height_width]

theorem run_render_relayout :
    run_steps
        [GeometryStep.render (num 2) (num (1/2)) (num 480) (num 640) margin_60,
         GeometryStep.relayout (num 2) (num (1/2)) (num 300) (num 1000)] initial_geometry
      = { width := num 600, height := num 300, margin := margin_60,
          plotarea_width := num 520, plotarea_height := num 360 } := by
  simp only [run_steps, List.foldl_cons, List.foldl_nil, GeometryStep.apply, render, relayout,
    update_plotarea_dimensions, get_height_width_640_480, get_height_width_1000_300, margin_60,
    JSVal.sub_num_num]
  norm_num

/-- C11 (counterexample). After `render` with a size of `640 × 480` and a margin
of `60` on every side, the synchronous part of `relayout` on an element of
`1000 × 300` stores the width `600` and the height `300`, while the plot area
is still `520 × 360`: `600 - 60 - 60` is `480`, not `520`. -/
theorem relayout_leaves_plotarea_stale :
    run_steps
        [GeometryStep.render (num 2) (num (1/2)) (num 480) (num 640) margin_60,
         GeometryStep.relayout (num 2) (num (1/2)) (num 300) (num 1000)] initial_geometry
        = { width := num 600, height := num 300, margin := margin_60,
            plotarea_width := num 520, plotarea_height := num 360 }
      ∧ ¬ PlotareaFresh (run_steps
        [GeometryStep.render (num 2) (num (1/2)) (num 480) (num 640) margin_60,
         GeometryStep.relayout (num 2) (num (1/2)) (num 300) (num 1000)] initial_geometry) := by
  refine ⟨run_render_relayout, ?_⟩
  rw [run_render_relayout]
  rintro ⟨hw, -⟩
  simp only [margin_60, JSVal.sub_num_num] at hw
  have h2 : (520 : ℚ) = 600 - 60 - 60 := by
    injection hw
  norm_num at h2

/-- C11 (amended). In every state reached by a sequence of `render`, the
synchronous part of `relayout`, its animation-frame part and
`update_plotarea_dimensions` whose last step is not the synchronous part of
`relayout`, the stored plot area is the stored size less the stored margin.
The synchronous part of `relayout` replaces the stored width and height by
the result of `_get_height_width` and leaves the stored margin and plot area
as they were.  The animation-frame part stores the margin read from the
model, keeps the width and height, and sets the plot area to that size less
that margin.  `render` stores the result of `_get_height_width`, the margin
read from the model and the plot area they give, and
`update_plotarea_dimensions` changes neither size nor margin. -/
theorem plotarea_fresh_after_steps (g : Geometry) (steps : List GeometryStep)
    (last : GeometryStep) (hlast : last.isRelayout = false) :
    PlotareaFresh (run_steps (steps ++ [last]) g)
      ∧ (∀ max_ratio min_ratio clientHeight clientWidth : JSVal,
          (relayout g max_ratio min_ratio clientHeight clientWidth).plotarea_width
              = g.plotarea_width
            ∧ (relayout g max_ratio min_ratio clientHeight clientWidth).plotarea_height
              = g.plotarea_height
            ∧ (relayout g max_ratio min_ratio clientHeight clientWidth).margin = g.margin
            ∧ (relayout g max_ratio min_ratio clientHeight clientWidth).width
              = (_get_height_width max_ratio min_ratio clientHeight clientWidth).width
            ∧ (relayout g max_ratio min_ratio clientHeight clientWidth).height
              = (_get_height_width max_ratio min_ratio clientHeight clientWidth).height
            ∧ ∀ fig_margin : Margin, PlotareaFresh (relayout_animation_frame
                (relayout g max_ratio min_ratio clientHeight clientWidth) fig_margin))
      ∧ (∀ fig_margin : Margin,
          (relayout_animation_frame g fig_margin).margin = fig_margin
            ∧ (relayout_animation_frame g fig_margin).width = g.width
            ∧ (relayout_animation_frame g fig_margin).height = g.height
            ∧ (relayout_animation_frame g fig_margin).plotarea_width
              = sub (sub g.width fig_margin.left) fig_margin.right
            ∧ (relayout_animation_frame g fig_margin).plotarea_height
              = sub (sub g.height fig_margin.top) fig_margin.bottom)
      ∧ (∀ (max_ratio min_ratio min_height min_width : JSVal) (fig_margin : Margin),
          (render max_ratio min_ratio min_height min_width fig_margin).margin = fig_margin
            ∧ (render max_ratio min_ratio min_height min_width fig_margin).width
              = (_get_height_width max_ratio min_ratio min_height min_width).width
            ∧ (render max_ratio min_ratio min_height min_width fig_margin).height
              = (_get_height_width max_ratio min_ratio min_height min_width).height
            ∧ (render max_ratio min_ratio min_height min_width fig_margin).plotarea_width
              = sub (sub (_get_height_width max_ratio min_ratio min_height min_width).width
                  fig_margin.left) fig_margin.right
            ∧ (render max_ratio min_ratio min_height min_width fig_margin).plotarea_height
              = sub (sub (_get_height_width max_ratio min_ratio min_height min_width).height
                  fig_margin.top) fig_margin.bottom)
      ∧ (update_plotarea_dimensions g).width = g.width
      ∧ (update_plotarea_dimensions g).height = g.height
      ∧ (update_plotarea_dimensions g).margin = g.margin
      ∧ (update_plotarea_dimensions g).plotarea_width
          = sub (sub g.width g.margin.left) g.margin.right
      ∧ (update_plotarea_dimensions g).plotarea_height
          = sub (sub g.height g.margin.top) g.margin.bottom := by
  refine ⟨?_, ?_, ?_, ?_, rfl, rfl, rfl, rfl, rfl⟩
  · rw [run_steps_append]
    exact plotareaFresh_apply last _ hlast
  · intro max_ratio min_ratio clientHeight clientWidth
    exact ⟨rfl, rfl, rfl, rfl, rfl, fun _ => plotareaFresh_update_plotarea_dimensions _⟩
  · intro fig_margin
    exact ⟨rfl, rfl, rfl, rfl, rfl⟩
  · intro max_ratio min_ratio min_height min_width fig_margin
    exact ⟨rfl, rfl, rfl, rfl, rfl⟩

/-- Witness for C11 (amended): `render` at `640 × 480` with a margin of `60`,
then a whole `relayout` (both parts) on an element of `1000 × 300` with a new
margin of `40`: the size is `600 × 300`, the margin `40`, the plot area
`520 × 220`. -/
theorem plotarea_fresh_after_steps_witness :
    PlotareaFresh (run_steps
      ([GeometryStep.render (num 2) (num (1/2)) (num 480) (num 640) margin_60,
        GeometryStep.relayout (num 2) (num (1/2)) (num 300) (num 1000)]
        ++ [GeometryStep.relayout_animation_frame margin_40]) initial_geometry)
      ∧ run_steps
          ([GeometryStep.render (num 2) (num (1/2)) (num 480) (num 640) margin_60,
            GeometryStep.relayout (num 2) (num (1/2)) (num 300) (num 1000)]
            ++ [GeometryStep.relayout_animation_frame margin_40]) initial_geometry
        = { width := num 600, height := num 300, margin := margin_40,
            plotarea_width := num 520, plotarea_height := num 220 } := by
  refine ⟨(plotarea_fresh_after_steps initial_geometry
    [GeometryStep.render (num 2) (num (1/2)) (num 480) (num 640) margin_60,
     GeometryStep.relayout (num 2) (num (1/2)) (num 300) (num 1000)]
    (GeometryStep.relayout_animation_frame margin_40) rfl).1, ?_⟩
  rw [run_steps_append, run_render_relayout]
  simp only [GeometryStep.apply, relayout_animation_frame, update_plotarea_dimensions,
    margin_40, JSVal.sub_num_num]
  norm_num

/-! ## Properties of the legend -/

theorem legend_step_snd_ge (acc : ℚ × ℚ) (mark_view : LegendMark) :
    acc.2 ≤ (legend_step acc mark_view).2 := by
  unfold legend_step
  by_cases hd : mark_view.display_legend = true
  · simp only [hd, if_true]
    cases h2 : (mark_view.draw_legend (acc.1 * (legend_height + 2))).2 with
    | none => exact le_refl _
    | some len =>
      by_cases h0 : len = 0
      · simp [h0]
      · simp only [h0, if_false]
        exact le_max_left _ _
  · simp [hd]

theorem foldl_legend_step_snd_ge (views : List LegendMark) (acc : ℚ × ℚ) :
    acc.2 ≤ (views.foldl legend_step acc).2 := by
  induction views generalizing acc with
  | nil => exact le_refl _
  | cons v rest ih => exact le_trans (legend_step_snd_ge acc v) (ih _)

theorem foldl_legend_step_fst (views : List LegendMark) (acc : ℚ × ℚ) :
    (views.foldl legend_step acc).1 = acc.1 + (reported_rows views acc.1).sum := by
  induction views generalizing acc with
  | nil => simp [reported_rows]
  | cons v rest ih =>
    by_cases hd : v.display_legend = true
    · rw [List.foldl_cons, ih]
      simp [legend_step, reported_rows, hd, add_assoc]
    · rw [List.foldl_cons, ih]
      simp [legend_step, reported_rows, hd]

theorem foldl_legend_step_filter (views : List LegendMark) (acc : ℚ × ℚ) :
    (views.filter (fun v => v.display_legend)).foldl legend_step acc
      = views.foldl legend_step acc := by
  induction views generalizing acc with
  | nil => rfl
  | cons v rest ih =>
    by_cases hd : v.display_legend = true
    · simp [List.filter_cons, hd, ih]
    · have hstep : legend_step acc v = acc := by simp [legend_step, hd]
      simp [List.filter_cons, hd, ih, hstep]

theorem get_legend_coords_bottom_right (f : State) (W H D : ℚ) :
    get_legend_coords f "bottom-right" W H D
      = (f.plotarea_width - D, f.plotarea_height - H) := by
  simp [get_legend_coords]

theorem get_legend_coords_top (f : State) (W H D : ℚ) :
    get_legend_coords f "top" W H D = (f.plotarea_width * 0.5 - W, 0) := by
  simp [get_legend_coords]

theorem get_legend_coords_bottom (f : State) (W H D : ℚ) :
    get_legend_coords f "bottom" W H D
      = (f.plotarea_width * 0.5 - W, f.plotarea_height - H) := by
  simp [get_legend_coords]

theorem reported_rows_filter (views : List LegendMark) (count : ℚ) :
    reported_rows (views.filter (fun v => v.display_legend)) count
      = reported_rows views count := by
  induction views generalizing count with
  | nil => rfl
  | cons v rest ih =>
    by_cases hd : v.display_legend = true
    · simp [List.filter_cons, hd, reported_rows, ih]
    · simp [List.filter_cons, hd, reported_rows, ih]

theorem foldl_legend_step_snd (views : List LegendMark) (count m : ℚ) :
    m ≤ (views.foldl legend_step (count, m)).2
      ∧ (∀ l ∈ reported_labels views count, l ≤ (views.foldl legend_step (count, m)).2)
      ∧ ((views.foldl legend_step (count, m)).2 = m
          ∨ (views.foldl legend_step (count, m)).2 ∈ reported_labels views count) := by
  induction views generalizing count m with
  | nil => exact ⟨le_refl _, fun l hl => absurd hl (List.not_mem_nil l), Or.inl rfl⟩
  | cons v rest ih =>
    by_cases hd : v.display_legend = true
    · cases hlab : (v.draw_legend (count * (legend_height + 2))).2 with
      | none =>
        have hstep : legend_step (count, m) v
            = (count + (v.draw_legend (count * (legend_height + 2))).1, m) := by
          simp [legend_step, hd, hlab]
        have hlabels : reported_labels (v :: rest) count
            = reported_labels rest (count + (v.draw_legend (count * (legend_height + 2))).1) := by
          simp [reported_labels, hd, hlab]
        rw [List.foldl_cons, hstep, hlabels]
        exact ih _ m
      | some len =>
        by_cases h0 : len = 0
        · have hstep : legend_step (count, m) v
              = (count + (v.draw_legend (count * (legend_height + 2))).1, m) := by
            simp [legend_step, hd, hlab, h0]
          have hlabels : reported_labels (v :: rest) count
              = reported_labels rest
                  (count + (v.draw_legend (count * (legend_height + 2))).1) := by
            simp [reported_labels, hd, hlab, h0]
          rw [List.foldl_cons, hstep, hlabels]
          exact ih _ m
        · have hstep : legend_step (count, m) v
              = (count + (v.draw_legend (count * (legend_height + 2))).1, max m len) := by
            simp [legend_step, hd, hlab, h0]
          have hlabels : reported_labels (v :: rest) count
              = len :: reported_labels rest
                  (count + (v.draw_legend (count * (legend_height + 2))).1) := by
            simp [reported_labels, hd, hlab, h0]
          rw [List.foldl_cons, hstep, hlabels]
          obtain ⟨h1, h2, h3⟩ := ih (count + (v.draw_legend (count * (legend_height + 2))).1)
            (max m len)
          refine ⟨le_trans (le_max_left _ _) h1, ?_, ?_⟩
          · intro l hl
            rcases List.mem_cons.mp hl with rfl | hl
            · exact le_trans (le_max_right _ _) h1
            · exact h2 l hl
          · rcases h3 with h3 | h3
            · rcases max_choice m len with hm | hm
              · exact Or.inl (by rw [h3, hm])
              · exact Or.inr (by rw [h3, hm]; exact List.mem_cons_self _ _)
            · exact Or.inr (List.mem_cons_of_mem _ h3)
    · have hstep : legend_step (count, m) v = (count, m) := by simp [legend_step, hd]
      have hlabels : reported_labels (v :: rest) count = reported_labels rest count := by
        simp [reported_labels, hd]
      rw [List.foldl_cons, hstep, hlabels]
      exact ih count m

/-- C12. `get_legend_coords("bottom-right", W, H, D)` returns
`x_start = plotarea_width - D` and `y_start = plotarea_height - H`, for every
plot area and every `W`, `H`, `D`.  `update_legend` measures the block: its
height is `(count + 1) * 16`, its width is that of the border rectangle,
`(max_label_len + 2)` em of `16` pixels, where `max_label_len` is the largest
of `1` and the label lengths that `draw_legend` reported.  For
`"bottom-right"` it places the legend at the `x_start` that
`get_legend_coords` gives for that block (with the displacement `0` that
`update_legend` passes), shifted left by the width of the block, and at the
`y_start` it gives. -/
theorem legend_bottom_right (f : State) (W H D : ℚ) (views : List LegendMark) :
    get_legend_coords f "bottom-right" W H D = (f.plotarea_width - D, f.plotarea_height - H)
      ∧ ∃ p, update_legend f "bottom-right" (some views) = some p
          ∧ IsLargestLabel (reported_labels views 1) p.max_label_len
          ∧ p.height = (p.count + 1) * 16
          ∧ p.coords
              = get_legend_coords f "bottom-right" (legend_block_width p.max_label_len)
                  p.height 0
          ∧ p.translate.1
              = (get_legend_coords f "bottom-right" (legend_block_width p.max_label_len)
                  p.height 0).1 - legend_block_width p.max_label_len
          ∧ p.translate.2
              = (get_legend_coords f "bottom-right" (legend_block_width p.max_label_len)
                  p.height 0).2
          ∧ p.translate = (f.plotarea_width - 0 - (p.max_label_len + 2) * 16,
                           f.plotarea_height - p.height) := by
  have hfold := foldl_legend_step_snd views 1 1
  refine ⟨get_legend_coords_bottom_right f W H D, _, rfl, ⟨hfold.1, hfold.2.1, hfold.2.2⟩,
    ?_, ?_, ?_, ?_, ?_⟩
  · simp only [legend_height]
    norm_num
  · simp only [get_legend_coords_bottom_right]
  · simp only [get_legend_coords_bottom_right, legend_block_width, em]
    simp only [or_true, if_true]
    ring
  · simp only [get_legend_coords_bottom_right]
  · simp only [get_legend_coords_bottom_right, em]
    simp only [or_true, if_true]
    congr 1
    ring

/-- Witness for C12: a mark left out of the legend (its label of length `20`
is not measured) and a mark with three rows and labels of length `7`, on a
plot area of `600 × 400`: the block is `(7 + 2) * 16 = 144` wide and
`(4 + 1) * 16 = 80` high, `x_start` is `600`, and the legend is placed at
`(600 - 144, 400 - 80)`. -/
theorem legend_bottom_right_witness :
    reported_labels [legend_mark_hidden, legend_mark_3] 1 = [7]
      ∧ (update_legend (figure [] [] [] []) "bottom-right"
          (some [legend_mark_hidden, legend_mark_3])).map
            (fun p => (p.max_label_len, p.coords, p.translate))
          = some (7, (600, 320), (456, 320))
      ∧ ∃ p, update_legend (figure [] [] [] []) "bottom-right"
            (some [legend_mark_hidden, legend_mark_3]) = some p
          ∧ IsLargestLabel (reported_labels [legend_mark_hidden, legend_mark_3] 1)
              p.max_label_len
          ∧ p.translate.1
              = (get_legend_coords (figure [] [] [] []) "bottom-right"
                  (legend_block_width p.max_label_len) p.height 0).1
                - legend_block_width p.max_label_len := by
  refine ⟨?_, ?_, ?_⟩
  · simp [reported_labels, legend_mark_3, legend_mark_hidden]
  · simp only [update_legend, get_legend_coords_bottom_right, List.foldl_cons, List.foldl_nil,
      Option.map_some']
    norm_num [legend_step, legend_mark_3, legend_mark_hidden, legend_height, figure, em]
  · obtain ⟨p, hp, hmax, -, -, hx, -, -⟩ :=
      (legend_bottom_right (figure [] [] [] []) 24 32 0
        [legend_mark_hidden, legend_mark_3]).2
    exact ⟨p, hp, hmax, hx⟩

/-- C13 (counterexample). On a plot area of width `600`, a block of width `24`
at `"top"` starts at `600 * 0.5 - 24 = 276`, so its middle is at `288`, not at
`300`. -/
theorem get_legend_coords_top_not_centred :
    (get_legend_coords (figure [] [] [] []) "top" 24 32 0).1 = 276
      ∧ (get_legend_coords (figure [] [] [] []) "top" 24 32 0).1 + 24 / 2
          ≠ (figure [] [] [] []).plotarea_width / 2 := by
  have h : (get_legend_coords (figure [] [] [] []) "top" 24 32 0).1 = 276 := by
    rw [get_legend_coords_top]
    norm_num [figure]
  refine ⟨h, ?_⟩
  rw [h]
  norm_num [figure]

/-- C13 (amended). For the locations `"top"` and `"bottom"` the `x_start`
returned by `get_legend_coords` puts the right edge of the block at the
middle of the plot area: `x_start + W = plotarea_width / 2`. -/
theorem get_legend_coords_top_bottom (f : State) (W H D : ℚ) :
    (get_legend_coords f "top" W H D).1 + W = f.plotarea_width / 2
      ∧ (get_legend_coords f "bottom" W H D).1 + W = f.plotarea_width / 2 := by
  constructor
  · rw [get_legend_coords_top]
    norm_num
    ring
  · rw [get_legend_coords_bottom]
    norm_num
    ring

/-- C14 (counterexample). For a mark left out of the legend followed by a mark
whose legend takes three rows, the rows reported are `[3]`, the counter ends
at `1 + 3 = 4` and the height passed on is `(4 + 1) * 16 = 80`, not
`(3 + 1) * (14 + 2) = 64`. -/
theorem update_legend_height_three_rows :
    reported_rows [legend_mark_hidden, legend_mark_3] 1 = [3]
      ∧ (update_legend (figure [] [] [] []) "top"
          (some [legend_mark_hidden, legend_mark_3])).map (fun p => p.height) = some 80
      ∧ (80 : ℚ) ≠ (3 + 1) * (14 + 2) := by
  refine ⟨?_, ?_, by norm_num⟩
  · simp [reported_rows, legend_mark_3, legend_mark_hidden]
  · simp only [update_legend, get_legend_coords_top, List.foldl_cons, List.foldl_nil,
      Option.map_some']
    norm_num [legend_step, legend_mark_3, legend_mark_hidden, legend_height]

/-- C14 (amended). The block height that `update_legend` passes to
`get_legend_coords` is `(row_count + 2) * (14 + 2)`, where `row_count` is the
sum of the rows reported by `draw_legend` over the marks with
`display_legend = true`: the counter starts at `1` and the height is
`(count + 1) * (14 + 2)`.  Marks with `display_legend = false` contribute
nothing. -/
theorem update_legend_block_height (f : State) (legend_location : String)
    (views : List LegendMark) :
    (∃ p, update_legend f legend_location (some views) = some p
        ∧ p.count = 1 + (reported_rows views 1).sum
        ∧ p.height = ((reported_rows views 1).sum + 2) * (14 + 2)
        ∧ p.coords = get_legend_coords f legend_location 24 p.height 0)
      ∧ update_legend f legend_location (some (views.filter (fun v => v.display_legend)))
          = update_legend f legend_location (some views)
      ∧ reported_rows (views.filter (fun v => v.display_legend)) 1 = reported_rows views 1 := by
  refine ⟨⟨_, rfl, ?_, ?_, ?_⟩, ?_, ?_⟩
  · exact foldl_legend_step_fst views (1, 1)
  · simp only [foldl_legend_step_fst views (1, 1), legend_height]
    ring
  · simp [legend_width]
  · simp only [update_legend, foldl_legend_step_filter]
  · exact reported_rows_filter views 1

/-! ## Properties of the container of the marks -/

theorem substitute_of_not_mem (ps : List (Node × Node)) (x : Node)
    (h : x ∉ ps.map Prod.fst) : substitute ps x = x := by
  induction ps with
  | nil => rfl
  | cons p rest ih =>
    obtain ⟨d, e⟩ := p
    simp only [List.map_cons, List.mem_cons, not_or] at h
    simp only [substitute, h.1, if_false]
    exact ih h.2

theorem substitute_of_mem (ps : List (Node × Node)) (d e : Node)
    (hnd : (ps.map Prod.fst).Nodup) (h : (d, e) ∈ ps) : substitute ps d = e := by
  induction ps with
  | nil => cases h
  | cons p rest ih =>
    obtain ⟨d1, e1⟩ := p
    simp only [List.map_cons, List.nodup_cons] at hnd
    rcases List.mem_cons.mp h with heq | hmem
    · cases heq
      simp [substitute]
    · have hne : d ≠ d1 := by
        intro hc
        subst hc
        exact hnd.1 (List.mem_map_of_mem Prod.fst hmem)
      simp only [substitute, hne, if_false]
      exact ih hnd.2 hmem

theorem filter_ne_of_not_mem (L : List Node) (x : Node) (h : x ∉ L) :
    L.filter (fun c => c ≠ x) = L := by
  rw [List.filter_eq_self]
  intro c hc
  have hne : c ≠ x := fun heq => h (heq ▸ hc)
  simpa using hne

theorem appendChild_of_not_mem (L : List Node) (x : Node) (h : x ∉ L) :
    appendChild L x = L ++ [x] := by
  simp only [appendChild, filter_ne_of_not_mem L x h]

theorem foldl_add_mark_dummy_node (ds L : List Node) (hnd : (L ++ ds).Nodup) :
    ds.foldl add_mark_dummy_node L = L ++ ds := by
  induction ds generalizing L with
  | nil => simp
  | cons d rest ih =>
    have hd : d ∉ L := by
      intro hc
      have := List.nodup_append.mp hnd
      exact this.2.2 hc (List.mem_cons_self _ _)
    have hnd2 : ((L ++ [d]) ++ rest).Nodup := by
      simpa [List.append_assoc] using hnd
    rw [List.foldl_cons, add_mark_dummy_node, appendChild_of_not_mem L d hd, ih _ hnd2]
    simp

theorem replaceChild_fresh (L : List Node) (d e : Node) (hd : d ∈ L) (he : e ∉ L) :
    replaceChild L e d = some (L.map (fun c => if c = d then e else c)) := by
  have hne : e ≠ d := fun hc => he (hc ▸ hd)
  simp only [replaceChild, hd, if_true, hne, if_false, filter_ne_of_not_mem L e he]

theorem replace_dummy_nodes_map (ps : List (Node × Node)) (L : List Node)
    (h1 : ∀ p ∈ ps, p.1 ∈ L) (h2 : ∀ p ∈ ps, p.2 ∉ L)
    (hnd : (ps.map Prod.fst ++ ps.map Prod.snd).Nodup) :
    replace_dummy_nodes L (ps.map view_of)
      = some (L.map (substitute ps),
              ps.map (fun m => ({ el := m.2, dummy_node := none } : NodeView))) := by
  induction ps generalizing L with
  | nil => simp [replace_dummy_nodes, substitute]
  | cons p rest ih =>
    obtain ⟨d, e⟩ := p
    have hsplit := List.nodup_append.mp hnd
    have hfst : (d :: rest.map Prod.fst).Nodup := by simpa using hsplit.1
    have hsnd : (e :: rest.map Prod.snd).Nodup := by simpa using hsplit.2.1
    have hdisj : ∀ x, x ∈ d :: rest.map Prod.fst → x ∈ e :: rest.map Prod.snd → False :=
      fun x hx hy => hsplit.2.2 (by simpa using hx) (by simpa using hy)
    have hd : d ∈ L := h1 (d, e) (List.mem_cons_self _ _)
    have he : e ∉ L := h2 (d, e) (List.mem_cons_self _ _)
    have hnd_rest : (rest.map Prod.fst ++ rest.map Prod.snd).Nodup := by
      refine List.nodup_append.mpr ⟨(List.nodup_cons.mp hfst).2, (List.nodup_cons.mp hsnd).2, ?_⟩
      intro x hx hy
      exact hdisj x (List.mem_cons_of_mem _ hx) (List.mem_cons_of_mem _ hy)
    have h1' : ∀ p ∈ rest, p.1 ∈ L.map (fun c => if c = d then e else c) := by
      intro p hp
      have hpne : p.1 ≠ d := by
        intro hc
        exact (List.nodup_cons.mp hfst).1 (hc ▸ List.mem_map_of_mem Prod.fst hp)
      have hmem : p.1 ∈ L := h1 p (List.mem_cons_of_mem _ hp)
      have := List.mem_map_of_mem (fun c => if c = d then e else c) hmem
      simpa [hpne] using this
    have h2' : ∀ p ∈ rest, p.2 ∉ L.map (fun c => if c = d then e else c) := by
      intro p hp hc
      obtain ⟨c, hcL, hceq⟩ := List.mem_map.mp hc
      by_cases hcd : c = d
      · simp only [hcd, if_true] at hceq
        exact (List.nodup_cons.mp hsnd).1 (hceq ▸ List.mem_map_of_mem Prod.snd hp)
      · simp only [hcd, if_false] at hceq
        exact h2 p (List.mem_cons_of_mem _ hp) (hceq ▸ hcL)
    have he_rest : e ∉ rest.map Prod.fst := fun hc =>
      hdisj e (List.mem_cons_of_mem _ hc) (List.mem_cons_self _ _)
    have hmap : (L.map (fun c => if c = d then e else c)).map (substitute rest)
        = L.map (substitute ((d, e) :: rest)) := by
      rw [List.map_map]
      apply List.map_congr_left
      intro c _
      by_cases hcd : c = d
      · simp [substitute, hcd, substitute_of_not_mem rest e he_rest]
      · simp [substitute, hcd]
    simp only [List.map_cons, view_of, replace_dummy_nodes, replaceChild_fresh L d e hd he]
    have hih := ih (L.map (fun c => if c = d then e else c)) h1' h2' hnd_rest
    simp only [view_of] at hih
    rw [hih, ← hmap]
    rfl

/-- C15. The placeholders of the marks `m1..mn` are appended to `fig_marks` in
the declared order by `add_mark`; when `replace_dummy_nodes` then runs on the
views in any order, it succeeds, the children of `fig_marks` are the elements
of `m1..mn` in the declared order, each at the place of its own placeholder
(the children that were there before stay in front), and every view has lost
its placeholder.  A mark is the pair of its placeholder and its element; all
nodes are distinct. -/
theorem replace_dummy_nodes_order (fig_marks : List Node) (marks order : List (Node × Node))
    (hnd : (fig_marks ++ (marks.map Prod.fst ++ marks.map Prod.snd)).Nodup)
    (hperm : order.Perm marks) :
    (marks.map Prod.fst).foldl add_mark_dummy_node fig_marks
        = fig_marks ++ marks.map Prod.fst
      ∧ replace_dummy_nodes ((marks.map Prod.fst).foldl add_mark_dummy_node fig_marks)
          (order.map view_of)
        = some (fig_marks ++ marks.map Prod.snd,
                order.map (fun m => ({ el := m.2, dummy_node := none } : NodeView))) := by
  have hsplit := List.nodup_append.mp hnd
  have hms := List.nodup_append.mp hsplit.2.1
  have hplace : (marks.map Prod.fst).foldl add_mark_dummy_node fig_marks
      = fig_marks ++ marks.map Prod.fst := by
    apply foldl_add_mark_dummy_node
    refine List.nodup_append.mpr ⟨hsplit.1, hms.1, ?_⟩
    intro x hx hy
    exact hsplit.2.2 hx (List.mem_append_left _ hy)
  refine ⟨hplace, ?_⟩
  rw [hplace]
  have hofst : (order.map Prod.fst).Perm (marks.map Prod.fst) := hperm.map Prod.fst
  have hosnd : (order.map Prod.snd).Perm (marks.map Prod.snd) := hperm.map Prod.snd
  have hond : (order.map Prod.fst ++ order.map Prod.snd).Nodup :=
    (List.Perm.append hofst hosnd).nodup_iff.mpr hsplit.2.1
  have h1 : ∀ p ∈ order, p.1 ∈ fig_marks ++ marks.map Prod.fst := by
    intro p hp
    exact List.mem_append_right _ (List.mem_map_of_mem Prod.fst (hperm.mem_iff.mp hp))
  have h2 : ∀ p ∈ order, p.2 ∉ fig_marks ++ marks.map Prod.fst := by
    intro p hp hc
    have hsndmem : p.2 ∈ marks.map Prod.snd :=
      List.mem_map_of_mem Prod.snd (hperm.mem_iff.mp hp)
    rcases List.mem_append.mp hc with hc | hc
    · exact hsplit.2.2 hc (List.mem_append_right _ hsndmem)
    · exact hms.2.2 hc hsndmem
  rw [replace_dummy_nodes_map order _ h1 h2 hond]
  have hfront : fig_marks.map (substitute order) = fig_marks := by
    conv_rhs => rw [← List.map_id fig_marks]
    apply List.map_congr_left
    intro c hc
    apply substitute_of_not_mem
    intro hmem
    exact hsplit.2.2 hc (List.mem_append_left _ (hofst.mem_iff.mp hmem))
  have hback : (marks.map Prod.fst).map (substitute order) = marks.map Prod.snd := by
    rw [List.map_map]
    apply List.map_congr_left
    intro m hm
    exact substitute_of_mem order m.1 m.2 (hofst.nodup_iff.mpr hms.1) (hperm.mem_iff.mpr hm)
  rw [List.map_append, hfront, hback]

/-- Witness for C15: the marks `A`, `B`, `C` with the views given in the order
`C`, `A`, `B`; the children end as the elements of `A`, `B`, `C`. -/
theorem replace_dummy_nodes_order_witness :
    replace_dummy_nodes ((marks_abc.map Prod.fst).foldl add_mark_dummy_node [])
        (marks_cab.map view_of)
      = some ([] ++ marks_abc.map Prod.snd,
              marks_cab.map (fun m => ({ el := m.2, dummy_node := none } : NodeView))) :=
  (replace_dummy_nodes_order [] marks_abc marks_cab (by decide) (by decide)).2

/-! ## Properties of the extent left to a mark -/

/-- With padding allowed, the extent left to a mark exceeds the length of the
padded range by the figure padding of one side: the padded range takes the
figure padding off at both ends, the extent takes it off once. -/
theorem get_mark_plotarea_extent_excess (f : State) (scale_model : ScaleModel)
    (h : scale_model.allow_padding = true) :
    (∃ a b, padded_range f "x" scale_model = some (a, b)
        ∧ get_mark_plotarea_width f scale_model
            = (b - a) + f.plotarea_width * f.figure_padding_x)
      ∧ ∃ a b, padded_range f "y" scale_model = some (a, b)
        ∧ get_mark_plotarea_height f scale_model
            = (a - b) + f.plotarea_height * f.figure_padding_y := by
  have hx : padded_range f "x" scale_model
      = some (f.plotarea_width * f.figure_padding_x
                + effective_padding f.x_padding_arr scale_model.id,
              f.plotarea_width - f.plotarea_width * f.figure_padding_x
                - effective_padding f.x_padding_arr scale_model.id) := by
    simp [padded_range, h]
  have hy : padded_range f "y" scale_model
      = some (f.plotarea_height - effective_padding f.y_padding_arr scale_model.id
                - f.plotarea_height * f.figure_padding_y,
              effective_padding f.y_padding_arr scale_model.id
                + f.plotarea_height * f.figure_padding_y) := by
    simp [padded_range, h]
  refine ⟨⟨_, _, hx, ?_⟩, ⟨_, _, hy, ?_⟩⟩
  · simp only [get_mark_plotarea_width, h]
    simp
    ring
  · simp only [get_mark_plotarea_height, h]
    simp
    ring

/-- C16 (failing input). On a plot area of `600 × 400` with a figure padding
fraction of `1/10` and a scale with an effective padding of `12`, the padded
ranges are `[72, 528]` and `[348, 52]`, of lengths `456` and `296`, while
`get_mark_plotarea_width` is `600 * (1 - 1/10) - 12 - 12 = 516` and
`get_mark_plotarea_height` is `400 * (1 - 1/10) - 12 - 12 = 336`. -/
theorem get_mark_plotarea_extent_differs :
    scale_s.allow_padding = true
      ∧ padded_range (figure [] [] [("s", 12)] [("s", 12)]) "x" scale_s = some (72, 528)
      ∧ get_mark_plotarea_width (figure [] [] [("s", 12)] [("s", 12)]) scale_s = 516
      ∧ (516 : ℚ) ≠ 528 - 72
      ∧ padded_range (figure [] [] [("s", 12)] [("s", 12)]) "y" scale_s = some (348, 52)
      ∧ get_mark_plotarea_height (figure [] [] [("s", 12)] [("s", 12)]) scale_s = 336
      ∧ (336 : ℚ) ≠ 348 - 52 := by
  have ex : effective_padding [("s", 12)] "s" = 12 := by
    simp [effective_padding, JSObj.get]
  refine ⟨rfl, ?_, ?_, by norm_num, ?_, ?_, by norm_num⟩
  · simp only [padded_range, figure, scale_s, ex]
    norm_num
  · simp only [get_mark_plotarea_width, figure, scale_s, ex]
    norm_num
  · simp [padded_range, figure, scale_s, ex]
    norm_num
  · simp only [get_mark_plotarea_height, figure, scale_s, ex]
    norm_num

end Figure
